import Mathlib

/-!
Shallow embedding of the resume text-extraction engine of
`src/utils/resume-parser.js` (job-portal repository), together with
theorems that settle the frozen claims about its specification.

The JavaScript code works by cascading regular-expression strategies over
an in-memory string.  Each regex of the source is embedded here as an
executable matcher over `List Char` that implements that regex's
backtracking semantics (greedy/lazy quantifiers, ordered alternation,
word boundaries, multiline anchors, case-insensitive flags) for the shape
of that particular pattern.  The extractor functions then mirror the
source's control flow statement by statement.  The wall-clock call
`new Date().getFullYear()` is modelled by an explicit `currentYear`
parameter, and the two `while (regex.exec(...))` loops that manipulate
`lastIndex` (strategy 4 of the project and work-experience extractors)
are modelled with explicit fuel, `none` meaning the loop has not
finished within the given number of iterations.
-/

namespace ResumeParser

/-- Apostrophe character, written via its code point. -/
def apos : Char := Char.ofNat 39

/-- Whitespace as matched by the JavaScript regex class `\s` and by
`String.prototype.trim` (ASCII portion, which covers all inputs used
here). -/
def isJsWs (c : Char) : Bool :=
  c = ' ' || c = '\t' || c = '\n' || c = '\r' || c = '\x0b' || c = '\x0c'

def isDigitCh (c : Char) : Bool := '0' ≤ c && c ≤ '9'

def isUpperCh (c : Char) : Bool := 'A' ≤ c && c ≤ 'Z'

def isLowerCh (c : Char) : Bool := 'a' ≤ c && c ≤ 'z'

def isLetterCh (c : Char) : Bool := isUpperCh c || isLowerCh c

/-- The JavaScript regex class `\w`: letters, digits and underscore. -/
def isWordCh (c : Char) : Bool := isLetterCh c || isDigitCh c || c = '_'

/-- ASCII lowercasing, as used by `toLowerCase` and the `i` regex flag on
the ASCII inputs of this development. -/
def lowerCh (c : Char) : Char :=
  if isUpperCh c then Char.ofNat (c.toNat + 32) else c

def upperCh (c : Char) : Char :=
  if isLowerCh c then Char.ofNat (c.toNat - 32) else c

/-- Case-insensitive character comparison. -/
def ciEq (a b : Char) : Bool := lowerCh a = lowerCh b

def lowerStr (cs : List Char) : List Char := cs.map lowerCh

/-- `String.prototype.trim`. -/
def jsTrim (cs : List Char) : List Char :=
  ((cs.dropWhile isJsWs).reverse.dropWhile isJsWs).reverse

/-- Split on the literal newline character, as `text.split('\n')`. -/
def splitNl (cs : List Char) : List (List Char) :=
  cs.foldr (fun c acc =>
    match acc with
    | [] => [[c]]
    | g :: gs => if c = '\n' then [] :: (g :: gs) else (c :: g) :: gs) [[]]

/-- Consume the literal `pat` (case-sensitively) from the front. -/
def dropLit : List Char → List Char → Option (List Char)
  | [], cs => some cs
  | _ :: _, [] => none
  | p :: ps, c :: cs => if p = c then dropLit ps cs else none

/-- Consume the literal `pat` case-insensitively from the front. -/
def dropLitCI : List Char → List Char → Option (List Char)
  | [], cs => some cs
  | _ :: _, [] => none
  | p :: ps, c :: cs => if ciEq p c then dropLitCI ps cs else none

/-- Case-insensitive literal consumption that also returns the consumed
input characters in their original case (needed where the source keeps
`match[n]` verbatim). -/
def dropLitCIKeep : List Char → List Char → Option (List Char × List Char)
  | [], cs => some ([], cs)
  | _ :: _, [] => none
  | p :: ps, c :: cs =>
    if ciEq p c then (dropLitCIKeep ps cs).map (fun pr => (c :: pr.1, pr.2))
    else none

/-- Greedy run of a character class: `(run, rest)`. -/
def takeRun (p : Char → Bool) : List Char → (List Char × List Char)
  | [] => ([], [])
  | c :: cs =>
    if p c then
      let pr := takeRun p cs
      (c :: pr.1, pr.2)
    else ([], c :: cs)

/-- Does `pre` occur at the front of `cs` (case-sensitive)? -/
def litAtFront (pre cs : List Char) : Bool := (dropLit pre cs).isSome

/-- First index of a literal substring, as `String.prototype.indexOf`. -/
def indexOfLit (pat : List Char) : List Char → Option Nat
  | [] => if litAtFront pat [] then some 0 else none
  | c :: cs =>
    if litAtFront pat (c :: cs) then some 0
    else (indexOfLit pat cs).map (· + 1)

/-- Does `pat` occur anywhere inside `cs` (case-sensitive)? -/
def containsLit (pat cs : List Char) : Bool := (indexOfLit pat cs).isSome

/-- Does `pat` occur anywhere inside `cs`, case-insensitively? -/
def containsLitCI (pat cs : List Char) : Bool :=
  containsLit (lowerStr pat) (lowerStr cs)

/-- Remove the first (leftmost, case-sensitive) occurrence of the literal
`pat`, as `String.prototype.replace(string, '')`.  Replacing the empty
string is a no-op, matching JavaScript. -/
def replaceFirstStr (pat cs : List Char) : List Char :=
  if pat = [] then cs else
  match indexOfLit pat cs with
  | none => cs
  | some i => cs.take i ++ cs.drop (i + pat.length)

/-- JavaScript word-boundary `\b` placed before a word character: the
previous character (if any) must not be a word character. -/
def wbBefore (prev : Option Char) : Bool :=
  match prev with
  | none => true
  | some c => !isWordCh c

/-- JavaScript word-boundary `\b` placed after a word character: the
following character (if any) must not be a word character. -/
def wbAfter : List Char → Bool
  | [] => true
  | c :: _ => !isWordCh c

/-! Backtracking combinators in continuation-passing style.  A matcher
continuation receives the rest of the input and returns the final rest
after a successful overall match, letting each combinator realise the
same greedy/lazy-with-backtracking order as the JavaScript engine. -/

/-- Greedy `p*` over a character class, backtracking into `k`. -/
def starCh (p : Char → Bool) (k : List Char → Option α) : List Char → Option α
  | [] => k []
  | c :: cs =>
    if p c then
      match starCh p k cs with
      | some r => some r
      | none => k (c :: cs)
    else k (c :: cs)

/-- Lazy `p*?` over a character class. -/
def starChLazy (p : Char → Bool) (k : List Char → Option α) : List Char → Option α
  | [] => k []
  | c :: cs =>
    match k (c :: cs) with
    | some r => some r
    | none => if p c then starChLazy p k cs else none

/-- Exactly `n` characters of a class. -/
def repChExact (p : Char → Bool) : Nat → List Char → Option (List Char)
  | 0, cs => some cs
  | _ + 1, [] => none
  | n + 1, c :: cs => if p c then repChExact p n cs else none

/-- Greedy `p{0,hi}` with backtracking into `k`. -/
def repChUp (p : Char → Bool) (k : List Char → Option α) : Nat → List Char → Option α
  | 0, cs => k cs
  | _ + 1, [] => k []
  | n + 1, c :: cs =>
    if p c then
      match repChUp p k n cs with
      | some r => some r
      | none => k (c :: cs)
    else k (c :: cs)

/-- Greedy `p+` with backtracking into `k`. -/
def plusCh (p : Char → Bool) (k : List Char → Option α) (cs : List Char) : Option α :=
  match cs with
  | [] => none
  | c :: cs' => if p c then starCh p k cs' else none

/-- Greedy optional group `(?:m)?`. -/
def optG (m : (List Char → Option α) → List Char → Option α)
    (k : List Char → Option α) (cs : List Char) : Option α :=
  match m k cs with
  | some r => some r
  | none => k cs

/-- Greedy optional single character `c?` (case-insensitive). -/
def optChCI (pc : Char) (k : List Char → Option α) (cs : List Char) : Option α :=
  match cs with
  | [] => k []
  | c :: cs' =>
    if ciEq pc c then
      match k cs' with
      | some r => some r
      | none => k (c :: cs')
    else k (c :: cs')

/-- Case-insensitive literal, CPS form. -/
def litCIK (pat : List Char) (k : List Char → Option α) (cs : List Char) : Option α :=
  (dropLitCI pat cs).bind k

/-- Case-sensitive literal, CPS form. -/
def litK (pat : List Char) (k : List Char → Option α) (cs : List Char) : Option α :=
  (dropLit pat cs).bind k

/-- Ordered alternation of case-insensitive literals with backtracking:
the continuation also learns the original-case characters consumed. -/
def altLitsCIK (k : List Char → List Char → Option α) :
    List (List Char) → List Char → Option α
  | [], _ => none
  | pat :: pats, cs =>
    match dropLitCIKeep pat cs with
    | some (w, r) =>
      match k w r with
      | some v => some v
      | none => altLitsCIK k pats cs
    | none => altLitsCIK k pats cs

/-- Ordered alternation of arbitrary sub-matchers. -/
def altK (k : List Char → Option α) :
    List ((List Char → Option α) → List Char → Option α) → List Char → Option α
  | [], _ => none
  | m :: ms, cs =>
    match m k cs with
    | some v => some v
    | none => altK k ms cs

/-- Greedy star over a sub-matcher, fuel-bounded (every group starred in
the source consumes at least one character, so fuel `length + 1` is
exact). -/
def starG (m : (List Char → Option α) → List Char → Option α)
    (k : List Char → Option α) : Nat → List Char → Option α
  | 0, cs => k cs
  | n + 1, cs =>
    match m (fun cs' => starG m k n cs') cs with
    | some r => some r
    | none => k cs

/-- Greedy `{lo,hi}` repetition of a sub-matcher. -/
def repG (m : (List Char → Option α) → List Char → Option α)
    (k : List Char → Option α) : Nat → Nat → List Char → Option α
  | _, 0, cs => k cs
  | 0, n + 1, cs =>
    match m (fun cs' => repG m k 0 n cs') cs with
    | some r => some r
    | none => k cs
  | lo + 1, n + 1, cs => m (fun cs' => repG m k lo n cs') cs

/-- Leftmost-match scan: try the position matcher at every index in
order, tracking the previous character for `\b` and `^m` tests.  The
result is paired with the match index. -/
def scanFirst (tryAt : Option Char → List Char → Option α) :
    Option Char → Nat → List Char → Option (Nat × α)
  | prev, i, [] => (tryAt prev []).map (fun a => (i, a))
  | prev, i, c :: cs =>
    match tryAt prev (c :: cs) with
    | some a => some (i, a)
    | none => scanFirst tryAt (some c) (i + 1) cs

/-- Leftmost match over a whole input. -/
def findFirst (tryAt : Option Char → List Char → Option α) (cs : List Char) :
    Option (Nat × α) :=
  scanFirst tryAt none 0 cs

/-- Advance `n` characters, keeping track of the character preceding the
new position. -/
def advanceN : Option Char → List Char → Nat → Option Char × List Char
  | prev, cs, 0 => (prev, cs)
  | prev, [], _ + 1 => (prev, [])
  | _, c :: cs, n + 1 => advanceN (some c) cs n

/-- All matches of a global (`g`-flag) regex, scanning left to right and
continuing after the end of each match, as the `while (m = re.exec(s))`
loops of the source.  Matchers yield `(matchLength, payload)` with
`matchLength ≥ 1` for every pattern embedded here.  Fuel `length + 1`
is always sufficient. -/
def globalScan (tryAt : Option Char → List Char → Option (Nat × α)) :
    Nat → Option Char → Nat → List Char → List (Nat × Nat × α)
  | 0, _, _, _ => []
  | fuel + 1, prev, i, cs =>
    match scanFirst tryAt prev i cs with
    | none => []
    | some (j, (len, a)) =>
      let pr := advanceN prev cs (j - i + max len 1)
      (j, len, a) :: globalScan tryAt fuel pr.1 (j + max len 1) pr.2

def globalMatches (tryAt : Option Char → List Char → Option (Nat × α))
    (cs : List Char) : List (Nat × Nat × α) :=
  globalScan tryAt (cs.length + 1) none 0 cs

/-- JavaScript `a || b` on strings: `b` when `a` is empty (falsy). -/
def jsOr (a b : String) : String := if a = "" then b else a

/-- JavaScript `expr || b` where `expr` may be `null` (modelled `none`). -/
def jsOrOpt (a : Option String) (b : String) : String :=
  match a with
  | some s => jsOr s b
  | none => b

/-- Generic splitter for `String.prototype.split(regex)`: cut at each
leftmost separator match (`sepAt` returns the separator length at a
position).  All separators used in the source consume at least one
character, so fuel `length + 1` suffices. -/
def splitRe (sepAt : List Char → Option Nat) : Nat → List Char → List (List Char)
  | 0, cs => [cs]
  | fuel + 1, cs =>
    match findFirst (fun _ s => sepAt s) cs with
    | none => [cs]
    | some (i, len) => cs.take i :: splitRe sepAt fuel (cs.drop (i + len))

def splitReF (sepAt : List Char → Option Nat) (cs : List Char) : List (List Char) :=
  splitRe sepAt (cs.length + 1) cs

/-- Separator of `split(/\s*-\s*/)`: whitespace, a dash, whitespace. -/
def dashSepAt (cs : List Char) : Option Nat :=
  let pr := takeRun isJsWs cs
  match pr.2 with
  | '-' :: r2 =>
    let pr2 := takeRun isJsWs r2
    some (pr.1.length + 1 + pr2.1.length)
  | _ => none

def splitDashWs (cs : List Char) : List (List Char) := splitReF dashSepAt cs

/-- Index of the last newline inside a list, if any. -/
def lastNlIdx (cs : List Char) : Option Nat :=
  match cs with
  | [] => none
  | c :: cs' =>
    match lastNlIdx cs' with
    | some i => some (i + 1)
    | none => if c = '\n' then some 0 else none

/-- Separator of `split(/\n\s*\n/)`: a newline, then greedy `\s*`
backtracking to the last newline available inside that whitespace run. -/
def blankSepAt (cs : List Char) : Option Nat :=
  match cs with
  | '\n' :: r1 =>
    let ws := (takeRun isJsWs r1).1
    (lastNlIdx ws).map (fun k => 1 + k + 1)
  | _ => none

def splitBlankLines (cs : List Char) : List (List Char) := splitReF blankSepAt cs

/-- Characters that are not a newline (`[^\n]`). -/
def nonNl (c : Char) : Bool := c ≠ '\n'

/-! Date-range parsing (`extractDateRange`, lines 1551–1582), and the
year-range scan of `calculateExperience` (lines 1614–1647). -/

/-- The subpattern `(?:19|20)\d{2}`: four characters of a year, returned
verbatim. -/
def year4 : List Char → Option (List Char × List Char)
  | c1 :: c2 :: c3 :: c4 :: rest =>
    if ((c1 = '1' && c2 = '9') || (c1 = '2' && c2 = '0')) && isDigitCh c3 && isDigitCh c4
    then some ([c1, c2, c3, c4], rest)
    else none
  | _ => none

/-- The separator alternation `(?:-|to|–|—)` in source order. -/
def dateSeps : List (List Char) := [['-'], ['t', 'o'], ['–'], ['—']]

def presentWords : List (List Char) :=
  ["present".data, "current".data, "now".data]

/-- Position matcher for
`((?:19|20)\d{2})\s*(?:-|to|–|—)\s*((?:19|20)\d{2}|present|current|now)` (`i`),
returning the two capture groups. -/
def dateRangeP1At (cs : List Char) : Option (List Char × List Char) :=
  match year4 cs with
  | none => none
  | some (y1, r1) =>
    altLitsCIK (fun _ r3 =>
      let r4 := r3.dropWhile isJsWs
      match year4 r4 with
      | some (y2, _) => some (y1, y2)
      | none => altLitsCIK (fun w _ => some (y1, w)) presentWords r4)
      dateSeps (r1.dropWhile isJsWs)

/-- Month-name alternation of the source, in source order (short names
first, `May` listed twice as in the original). -/
def monthLits : List (List Char) :=
  (["Jan", "Feb", "Mar", "Apr", "May", "Jun", "Jul", "Aug", "Sep", "Oct",
    "Nov", "Dec", "January", "February", "March", "April", "May", "June",
    "July", "August", "September", "October", "November", "December"]).map String.data

/-- Month alternation extended with `Present|Current|Now` for the second
group of the project strategy-4 header pattern. -/
def monthOrPresentLits : List (List Char) :=
  monthLits ++ [['P','r','e','s','e','n','t'], ['C','u','r','r','e','n','t'], ['N','o','w']]

/-- Subpattern `(?:Jan|...|December)\s+(?:19|20)\d{2}`: the consumed
characters in original case, and the rest. -/
def monthYearAt (cs : List Char) : Option (List Char × List Char) :=
  altLitsCIK (fun m r =>
    let pr := takeRun isJsWs r
    if pr.1 = [] then none
    else
      match year4 pr.2 with
      | some (y, r2) => some (m ++ pr.1 ++ y, r2)
      | none => none) monthLits cs

/-- Position matcher for the `Month YYYY - Month YYYY|present` pattern of
`extractDateRange`. -/
def dateRangeP2At (cs : List Char) : Option (List Char × List Char) :=
  match monthYearAt cs with
  | none => none
  | some (g1, r1) =>
    altLitsCIK (fun _ r3 =>
      let r4 := r3.dropWhile isJsWs
      match monthYearAt r4 with
      | some (g2, _) => some (g1, g2)
      | none => altLitsCIK (fun w _ => some (g1, w)) presentWords r4)
      dateSeps (r1.dropWhile isJsWs)

/-- Subpattern `\d{1,2}\/(?:19|20)\d{2}` (two digits preferred). -/
def mmYearAt (cs : List Char) : Option (List Char × List Char) :=
  (match cs with
   | d1 :: d2 :: c :: rest =>
     if isDigitCh d1 && isDigitCh d2 && c = '/' then
       (year4 rest).map (fun yr => (d1 :: d2 :: '/' :: yr.1, yr.2))
     else none
   | _ => none) <|>
  (match cs with
   | d1 :: c :: rest =>
     if isDigitCh d1 && c = '/' then
       (year4 rest).map (fun yr => (d1 :: '/' :: yr.1, yr.2))
     else none
   | _ => none)

/-- Position matcher for the `MM/YYYY - MM/YYYY|present` pattern of
`extractDateRange`. -/
def dateRangeP3At (cs : List Char) : Option (List Char × List Char) :=
  match mmYearAt cs with
  | none => none
  | some (g1, r1) =>
    altLitsCIK (fun _ r3 =>
      let r4 := r3.dropWhile isJsWs
      match mmYearAt r4 with
      | some (g2, _) => some (g1, g2)
      | none => altLitsCIK (fun w _ => some (g1, w)) presentWords r4)
      dateSeps (r1.dropWhile isJsWs)

structure DateRange where
  startDate : String
  endDate : String
  deriving DecidableEq, Repr

def isPresentWord (w : List Char) : Bool :=
  lowerStr w = "present".data || lowerStr w = "current".data || lowerStr w = "now".data

/-- Normalisation of the second capture:
`match[2].toLowerCase() === 'present'|'current'|'now' ? 'Present' : match[2]`. -/
def normEnd (w : List Char) : String :=
  if isPresentWord w then "Present" else String.mk w

/-- Embedding of `extractDateRange` (lines 1551–1582): the three
patterns are tried in order, first match wins, else both fields are
empty. -/
def extractDateRange (text : String) : DateRange :=
  match findFirst (fun _ cs => dateRangeP1At cs) text.data with
  | some (_, a, b) => ⟨String.mk a, normEnd b⟩
  | none =>
    match findFirst (fun _ cs => dateRangeP2At cs) text.data with
    | some (_, a, b) => ⟨String.mk a, normEnd b⟩
    | none =>
      match findFirst (fun _ cs => dateRangeP3At cs) text.data with
      | some (_, a, b) => ⟨String.mk a, normEnd b⟩
      | none => ⟨"", ""⟩

/-! Section locator (`extractSection`, lines 1655–1746).  Each of the
seven header-shape patterns becomes a position matcher returning the
match length. -/

/-- Pattern ``\b${header}\s*:\s*[^\n]*\n`` (`i`). -/
def hdrColonAt (hp : List Char) (prev : Option Char) (cs : List Char) : Option Nat :=
  if wbBefore prev then
    (litCIK hp (fun r1 =>
      match r1.dropWhile isJsWs with
      | ':' :: r2 => starCh isJsWs (starCh nonNl (litK ['\n'] some)) r2
      | _ => none) cs).map (fun rest => cs.length - rest.length)
  else none

/-- Pattern ``\b${header}\b[^\n]*\n[-=]+\n`` (`i`). -/
def hdrUnderlineAt (hp : List Char) (prev : Option Char) (cs : List Char) : Option Nat :=
  if wbBefore prev then
    (litCIK hp (fun r1 =>
      if wbAfter r1 then
        starCh nonNl
          (litK ['\n'] (plusCh (fun c => c = '-' || c = '=') (litK ['\n'] some))) r1
      else none) cs).map (fun rest => cs.length - rest.length)
  else none

/-- Pattern ``\b${header}\b[^\n]*\n`` (`i`); with the uppercased header
this is also the all-caps pattern of the source. -/
def hdrBareAt (hp : List Char) (prev : Option Char) (cs : List Char) : Option Nat :=
  if wbBefore prev then
    (litCIK hp (fun r1 =>
      if wbAfter r1 then starCh nonNl (litK ['\n'] some) r1 else none) cs).map
      (fun rest => cs.length - rest.length)
  else none

/-- Pattern ``\[\s*${header}\s*\]|\(\s*${header}\s*\)`` (`i`). -/
def hdrBracketAt (hp : List Char) (_ : Option Char) (cs : List Char) : Option Nat :=
  ((match cs with
   | '[' :: r0 =>
     (dropLitCI hp (r0.dropWhile isJsWs)).bind (fun r1 =>
       match r1.dropWhile isJsWs with
       | ']' :: r2 => some r2
       | _ => none)
   | '(' :: r0 =>
     (dropLitCI hp (r0.dropWhile isJsWs)).bind (fun r1 =>
       match r1.dropWhile isJsWs with
       | ')' :: r2 => some r2
       | _ => none)
   | _ => none : Option (List Char))).map (fun rest => cs.length - rest.length)

/-- Pattern ``\\section\{${header}\}|\\subsection\{${header}\}`` (`i`). -/
def hdrLatexAt (hp : List Char) (_ : Option Char) (cs : List Char) : Option Nat :=
  (((dropLitCI ("\\section\x7b").data cs).bind (fun r1 =>
      (dropLitCI hp r1).bind (dropLit ['\x7d']))) <|>
   ((dropLitCI ("\\subsection\x7b").data cs).bind (fun r1 =>
      (dropLitCI hp r1).bind (dropLit ['\x7d'])))).map
    (fun rest => cs.length - rest.length)

/-- Pattern ``\d+\.\s*${header}\b[^\n]*\n`` (`i`). -/
def hdrNumberedAt (hp : List Char) (_ : Option Char) (cs : List Char) : Option Nat :=
  ((match takeRun isDigitCh cs with
   | ([], _) => none
   | (_ :: _, r1) =>
     match r1 with
     | '.' :: r2 =>
       (dropLitCI hp (r2.dropWhile isJsWs)).bind (fun r3 =>
         if wbAfter r3 then starCh nonNl (litK ['\n'] some) r3 else none)
     | _ => none : Option (List Char))).map (fun rest => cs.length - rest.length)

/-- The seven header-shape patterns for a header, in source priority
order. -/
def headerPatternsFor (h : String) : List (Option Char → List Char → Option Nat) :=
  let hp := h.data
  [hdrColonAt hp, hdrUnderlineAt hp, hdrBareAt (hp.map upperCh),
   hdrBracketAt hp, hdrLatexAt hp, hdrNumberedAt hp, hdrBareAt hp]

/-- First pattern (in priority order) that matches anywhere:
`(index, length)` of its leftmost match. -/
def firstPatternMatch (cs : List Char) :
    List (Option Char → List Char → Option Nat) → Option (Nat × Nat)
  | [] => none
  | p :: ps =>
    match findFirst p cs with
    | some il => some il
    | none => firstPatternMatch cs ps

def headerSpanMatch (cs : List Char) (h : String) : Option (Nat × Nat) :=
  firstPatternMatch cs (headerPatternsFor h)

/-- The fixed vocabulary of other section headers used to find where a
section ends (lines 1659–1668). -/
def commonHeaders : List String :=
  ["education", "experience", "skills", "projects", "certifications",
   "achievements", "publications", "references", "interests", "summary",
   "objective", "profile", "contact", "personal", "work history",
   "employment", "qualifications", "languages", "awards", "volunteer",
   "research", "teaching", "grants", "funding", "conferences", "presentations",
   "professional activities", "memberships", "affiliations", "service",
   "honors", "distinctions", "extracurricular", "activities", "leadership",
   "technical skills", "soft skills", "coursework", "training", "workshops"]

/-- End of the located section relative to its start: the nearest match
of any other common header in the remainder, else the remainder's
length. -/
def sectionEndRel (remainder : List Char) (h : String) : Nat :=
  commonHeaders.foldl (fun acc nh =>
    if nh = h then acc
    else
      match firstPatternMatch remainder (headerPatternsFor nh) with
      | some (i, _) => if i < acc then i else acc
      | none => acc) remainder.length

/-- The (trimmed) span extracted for one header synonym, if any pattern
matches it. -/
def sectionFor (cs : List Char) (h : String) : Option (List Char) :=
  (headerSpanMatch cs h).map (fun il =>
    let remainder := cs.drop (il.1 + il.2)
    jsTrim (remainder.take (sectionEndRel remainder h)))

/-- The synonym loop of `extractSection`: `total` is the length of the
original synonym list (the source guard reads `sectionHeaders.length`),
`acc` the value of the `sectionText` variable. -/
def extractSectionGo (cs : List Char) (total : Nat) :
    List String → List Char → List Char
  | [], acc => acc
  | h :: rest, acc =>
    match sectionFor cs h with
    | none => extractSectionGo cs total rest acc
    | some span =>
      if span.length < 10 ∧ 1 < total then extractSectionGo cs total rest span
      else span

/-- Embedding of `extractSection` (lines 1655–1746). -/
def extractSection (text : String) (sectionHeaders : List String) : String :=
  String.mk (extractSectionGo text.data sectionHeaders.length sectionHeaders [])

/-! Experience-years calculator (`calculateExperience`, lines 1614–1647). -/

def digitsToNat (ds : List Char) : Nat :=
  ds.foldl (fun acc c => acc * 10 + (c.toNat - '0'.toNat)) 0

/-- Position matcher for `(\d+)\+?\s*(?:years|yrs)\s*(?:of)?\s*experience` (`i`). -/
def explicitYearsAt (_ : Option Char) (cs : List Char) : Option Nat :=
  match takeRun isDigitCh cs with
  | ([], _) => none
  | (ds, r0) =>
    let r1 := match r0 with
              | '+' :: r => r
              | _ => r0
    altLitsCIK (fun _ r2 =>
      let r3 := r2.dropWhile isJsWs
      (((dropLitCI "of".data r3).bind (fun r4 =>
          dropLitCI "experience".data (r4.dropWhile isJsWs))) <|>
        dropLitCI "experience".data r3).map (fun _ => digitsToNat ds))
      ["years".data, "yrs".data] (r1.dropWhile isJsWs)

def explicitYears (text : String) : Option Nat :=
  (findFirst explicitYearsAt text.data).map (·.2)

/-- Position matcher for the global scan
`(?:19|20)\d{2}\s*-\s*(?:19|20)\d{2}|(?:19|20)\d{2}\s*-\s*present` (`gi`),
returning match length and the matched characters. -/
def yearRangeAt (_ : Option Char) (cs : List Char) : Option (Nat × List Char) :=
  match year4 cs with
  | none => none
  | some (y1, r1) =>
    let pr1 := takeRun isJsWs r1
    match pr1.2 with
    | '-' :: r2 =>
      let pr2 := takeRun isJsWs r2
      (match year4 pr2.2 with
       | some (y2, r3) =>
         some (cs.length - r3.length, y1 ++ pr1.1 ++ '-' :: pr2.1 ++ y2)
       | none => none) <|>
      (match dropLitCIKeep "present".data pr2.2 with
       | some (w, r3) =>
         some (cs.length - r3.length, y1 ++ pr1.1 ++ '-' :: pr2.1 ++ w)
       | none => none)
    | _ => none

/-- One matched range's contribution: `split(/\s*-\s*/)`, `parseInt`,
`present` resolving to the current year. -/
def rangeYears (currentYear : Nat) (m : List Char) : Int :=
  match splitDashWs m with
  | a :: b :: _ =>
    let startYear : Int := digitsToNat a
    let endYear : Int :=
      if lowerStr b = "present".data then currentYear else digitsToNat b
    endYear - startYear
  | _ => 0

/-- Embedding of `calculateExperience` (lines 1614–1647): the explicit
`N years of experience` phrase wins; otherwise `(end - start)` summed
over all year ranges of the experience section.  The source's final
`totalYears || 0` is the identity on numbers and is inlined. -/
def calculateExperience (currentYear : Nat) (text : String) : Int :=
  match explicitYears text with
  | some n => n
  | none =>
    let experienceSection :=
      extractSection text ["experience", "work experience", "employment history"]
    let ms := globalMatches yearRangeAt experienceSection.data
    ms.foldl (fun acc m => acc + rangeYears currentYear m.2.2) 0

/-! Contact extractors (lines 301–455). -/

/-- Substring of a match given index and length. -/
def matchStrAt (cs : List Char) (i len : Nat) : List Char := (cs.drop i).take len

def emailLocalCh (c : Char) : Bool :=
  isLetterCh c || isDigitCh c || c = '.' || c = '_' || c = '%' || c = '+' || c = '-'

def emailDomainCh (c : Char) : Bool :=
  isLetterCh c || isDigitCh c || c = '.' || c = '-'

/-- Position matcher for `[a-zA-Z0-9._%+-]+@[a-zA-Z0-9.-]+\.[a-zA-Z]{2,}`. -/
def emailAt (_ : Option Char) (cs : List Char) : Option (List Char) :=
  (plusCh emailLocalCh (fun r1 =>
    litK ['@'] (plusCh emailDomainCh (litK ['.'] (fun r3 =>
      (repChExact isLetterCh 2 r3).map (fun r4 => (takeRun isLetterCh r4).2)))) r1) cs).map
    (fun rest => cs.take (cs.length - rest.length))

/-- Embedding of `extractEmail` (lines 306–310). -/
def extractEmail (text : String) : Option String :=
  (findFirst emailAt text.data).map (fun m => String.mk m.2)

/-- The regex class `[-\.\s]` of the phone patterns. -/
def phoneSepCh (c : Char) : Bool := c = '-' || c = '.' || isJsWs c

/-- Greedy optional single character (case-sensitive) with backtracking. -/
def optCh (pc : Char) (k : List Char → Option α) (cs : List Char) : Option α :=
  match cs with
  | [] => k []
  | c :: cs' =>
    if c = pc then
      match k cs' with
      | some r => some r
      | none => k (c :: cs')
    else k (c :: cs')

/-- Greedy optional character class with backtracking. -/
def optChCl (p : Char → Bool) (k : List Char → Option α) (cs : List Char) : Option α :=
  match cs with
  | [] => k []
  | c :: cs' =>
    if p c then
      match k cs' with
      | some r => some r
      | none => k (c :: cs')
    else k (c :: cs')

/-- The phone-number shape
`(?:\+?\d{1,3}[-\.\s]?)?\(?\d{3}\)?[-\.\s]?\d{3}[-\.\s]?\d{4}` in CPS form. -/
def phoneCoreK (k : List Char → Option α) : List Char → Option α :=
  optG (fun k2 =>
      optCh '+' (fun r0 =>
        match r0 with
        | d :: r1 => if isDigitCh d then repChUp isDigitCh (optChCl phoneSepCh k2) 2 r1 else none
        | [] => none))
    (optCh '(' (fun r2 =>
      (repChExact isDigitCh 3 r2).bind (optCh ')' (optChCl phoneSepCh (fun r5 =>
        (repChExact isDigitCh 3 r5).bind (optChCl phoneSepCh (fun r7 =>
          (repChExact isDigitCh 4 r7).bind k)))))))

/-- The separator `\s*:?\s*` that follows every label alternation, with
full backtracking. -/
def labelSepK (k : List Char → Option α) (cs : List Char) : Option α :=
  starCh isJsWs (optCh ':' (starCh isJsWs k)) cs

/-- Position matcher for the labeled phone pattern
`(?:phone|mobile|cell|contact|tel)\s*:?\s*(core)` (`i`), returning the
capture group. -/
def phoneLabeledAt (_ : Option Char) (cs : List Char) : Option (List Char) :=
  altLitsCIK (fun _ r0 =>
    labelSepK (fun g0 =>
      (phoneCoreK some g0).map (fun rest => g0.take (g0.length - rest.length))) r0)
    (["phone", "mobile", "cell", "contact", "tel"].map String.data) cs

/-- Position matcher for the bare phone pattern, returning the whole
match. -/
def phoneBareAt (_ : Option Char) (cs : List Char) : Option (List Char) :=
  (phoneCoreK some cs).map (fun rest => cs.take (cs.length - rest.length))

/-- Embedding of `extractPhone` (lines 317–335): labeled pattern first,
returning the capture, then the bare pattern, returning the match. -/
def extractPhone (text : String) : Option String :=
  match findFirst phoneLabeledAt text.data with
  | some (_, cap) => some (String.mk cap)
  | none => (findFirst phoneBareAt text.data).map (fun m => String.mk m.2)

def wordDashCh (c : Char) : Bool := isWordCh c || c = '-'

/-- Optional scheme `(?:https?:\/\/)?`, case-insensitive. -/
def schemeCiK (k : List Char → Option α) : List Char → Option α :=
  optG (fun k2 => litCIK "http".data (optChCI 's' (litCIK "://".data k2))) k

/-- Optional scheme, case-sensitive (patterns without the `i` flag). -/
def schemeCsK (k : List Char → Option α) : List Char → Option α :=
  optG (fun k2 => litK "http".data (optCh 's' (litK "://".data k2))) k

/-- Optional `(?:www\.)?`, case-insensitive. -/
def wwwCiK (k : List Char → Option α) : List Char → Option α :=
  optG (fun k2 => litCIK "www.".data k2) k

/-- Optional `(?:www\.)?`, case-sensitive. -/
def wwwCsK (k : List Char → Option α) : List Char → Option α :=
  optG (fun k2 => litK "www.".data k2) k

/-- The repeated path segments `(?:\/[\w-]+)*`. -/
def slashSegsK (k : List Char → Option α) (cs : List Char) : Option α :=
  starG (fun k2 => litK ['/'] (plusCh wordDashCh k2)) k (cs.length + 1) cs

/-- Tail `linkedin\.com\/in\/[\w-]+(?:\/[\w-]+)*` (case-insensitive). -/
def linkedinTailCiK (k : List Char → Option α) : List Char → Option α :=
  litCIK "linkedin.com/in/".data (plusCh wordDashCh (fun r => slashSegsK k r))

/-- Tail, case-sensitive variant. -/
def linkedinTailCsK (k : List Char → Option α) : List Char → Option α :=
  litK "linkedin.com/in/".data (plusCh wordDashCh (fun r => slashSegsK k r))

/-- Position matcher for the labeled LinkedIn pattern
`(?:linkedin|profile|social)\s*:?\s*((?:https?:\/\/)?(?:www\.)?linkedin\.com\/in\/[\w-]+(?:\/[\w-]+)*)`
(`i`), returning the capture. -/
def linkedinLabeledAt (_ : Option Char) (cs : List Char) : Option (List Char) :=
  altLitsCIK (fun _ r0 =>
    labelSepK (fun g0 =>
      (schemeCiK (wwwCiK (linkedinTailCiK some)) g0).map
        (fun rest => g0.take (g0.length - rest.length))) r0)
    (["linkedin", "profile", "social"].map String.data) cs

/-- Position matcher for the bare LinkedIn pattern (no flags, so
case-sensitive), returning the whole match. -/
def linkedinBareAt (_ : Option Char) (cs : List Char) : Option (List Char) :=
  (schemeCsK (wwwCsK (linkedinTailCsK some)) cs).map
    (fun rest => cs.take (cs.length - rest.length))

/-- URL normalisation of the source:
`if (!url.startsWith('http')) return 'https://' + url; return url`. -/
def jsStartsWith (s pre : String) : Bool := litAtFront pre.data s.data

def ensureHttps (url : String) : String :=
  if jsStartsWith url "http" then url else "https://" ++ url

/-- Embedding of `extractLinkedIn` (lines 342–366). -/
def extractLinkedIn (text : String) : Option String :=
  match findFirst linkedinLabeledAt text.data with
  | some (_, url) => some (ensureHttps (String.mk url))
  | none =>
    (findFirst linkedinBareAt text.data).map (fun m => ensureHttps (String.mk m.2))

/-- Tail `github\.com\/[\w-]+(?:\/[\w-]+)*`, both case variants. -/
def githubTailCiK (k : List Char → Option α) : List Char → Option α :=
  litCIK "github.com/".data (plusCh wordDashCh (fun r => slashSegsK k r))

def githubTailCsK (k : List Char → Option α) : List Char → Option α :=
  litK "github.com/".data (plusCh wordDashCh (fun r => slashSegsK k r))

/-- Position matcher for the labeled GitHub pattern
`(?:github|git|repo|repository|code)\s*:?\s*(…github\.com\/…)` (`i`). -/
def githubLabeledAt (_ : Option Char) (cs : List Char) : Option (List Char) :=
  altLitsCIK (fun _ r0 =>
    labelSepK (fun g0 =>
      (schemeCiK (wwwCiK (githubTailCiK some)) g0).map
        (fun rest => g0.take (g0.length - rest.length))) r0)
    (["github", "git", "repo", "repository", "code"].map String.data) cs

/-- Position matcher for the bare GitHub pattern (case-sensitive). -/
def githubBareAt (_ : Option Char) (cs : List Char) : Option (List Char) :=
  (schemeCsK (wwwCsK (githubTailCsK some)) cs).map
    (fun rest => cs.take (cs.length - rest.length))

/-- Embedding of `extractGithubUrl` (lines 373–397). -/
def extractGithubUrl (text : String) : Option String :=
  match findFirst githubLabeledAt text.data with
  | some (_, url) => some (ensureHttps (String.mk url))
  | none =>
    (findFirst githubBareAt text.data).map (fun m => ensureHttps (String.mk m.2))

/-- The regex class `[\w-\.\/?%&=]` of the portfolio/live-URL paths. -/
def pathCh (c : Char) : Bool :=
  isWordCh c || c = '-' || c = '.' || c = '/' || c = '?' || c = '%' || c = '&' || c = '='

/-- Domain-with-optional-path `[\w-]+\.[a-z]{2,}(?:\/[\w-\.\/?%&=]*)?`,
letters case-insensitive (`i` flag).  The quantifier boundaries are all
at disjoint character classes, so the greedy derived form is exact. -/
def domainPathCi (cs : List Char) : Option (List Char) :=
  let pr := takeRun wordDashCh cs
  if pr.1 = [] then none else
  match pr.2 with
  | '.' :: r2 =>
    let lr := takeRun isLetterCh r2
    if lr.1.length < 2 then none
    else
      match lr.2 with
      | '/' :: r3 => some ((takeRun pathCh r3).2)
      | _ => some lr.2
  | _ => none

/-- Position matcher for the labeled portfolio pattern
`(?:portfolio|website|personal site|web|homepage)\s*:?\s*((?:https?:\/\/)?(?:www\.)?[\w-]+\.[a-z]{2,}(?:\/[\w-\.\/?%&=]*)?)`
(`i`), returning the capture.  Note: no linkedin/github exclusion
appears in this pattern. -/
def portfolioLabeledAt (_ : Option Char) (cs : List Char) : Option (List Char) :=
  altLitsCIK (fun _ r0 =>
    labelSepK (fun g0 =>
      (schemeCiK (wwwCiK (fun r => domainPathCi r)) g0).map
        (fun rest => g0.take (g0.length - rest.length))) r0)
    (["portfolio", "website", "personal site", "web", "homepage"].map String.data) cs

/-- The negative lookahead `(?!linkedin\.com|github\.com)` of the bare
portfolio pattern: fails when the text at this point starts with either
domain (case-sensitive; the pattern has no `i` flag). -/
def excludedLead (cs : List Char) : Bool :=
  litAtFront "linkedin.com".data cs || litAtFront "github.com".data cs

/-- Domain and mandatory-slash tail
`[\w-]+\.[a-z]{2,}(?:\/[\w-\.\/?%&=]*)?\/[\w-\.\/?%&=]*` of the bare
portfolio pattern (case-sensitive).  The optional path group and the
mandatory slash together consume the maximal path-character run, which
must begin with `/`. -/
def domainSlashTailCs (cs : List Char) : Option (List Char) :=
  let pr := takeRun wordDashCh cs
  if pr.1 = [] then none else
  match pr.2 with
  | '.' :: r2 =>
    let lr := takeRun isLowerCh r2
    if lr.1.length < 2 then none
    else
      match lr.2 with
      | '/' :: r3 => some ((takeRun pathCh r3).2)
      | _ => none
  | _ => none

/-- Position matcher for the bare portfolio pattern
`(?:https?:\/\/)?(?:www\.)?(?!linkedin\.com|github\.com)[\w-]+\.[a-z]{2,}(?:\/[…]*)?\/[…]*`
(case-sensitive), returning the whole match.  The four greedy-optional
branches (scheme × www) are tried in the engine's preference order. -/
def portfolioBareAt (_ : Option Char) (cs : List Char) : Option (List Char) :=
  let core : List Char → Option (List Char) := fun r =>
    if excludedLead r then none else domainSlashTailCs r
  let branch : List Char → Option (List Char) := fun r =>
    (match dropLit "www.".data r with
     | some r2 => core r2
     | none => none) <|> core r
  ((match dropLit "https://".data cs with
    | some r => branch r
    | none => none) <|>
   (match dropLit "http://".data cs with
    | some r => branch r
    | none => none) <|>
   branch cs).map (fun rest => cs.take (cs.length - rest.length))

/-- Embedding of `extractPortfolioUrl` (lines 404–428). -/
def extractPortfolioUrl (text : String) : Option String :=
  match findFirst portfolioLabeledAt text.data with
  | some (_, url) => some (ensureHttps (String.mk url))
  | none =>
    (findFirst portfolioBareAt text.data).map (fun m => ensureHttps (String.mk m.2))

/-! Identity extractor (`extractName`/`parseFullName`, lines 224–299). -/

/-- The name-word tail class `[a-zA-Z'-]`. -/
def nameTailCh (c : Char) : Bool := isLetterCh c || c = apos || c = '-'

/-- Case-sensitive name word `[A-Z][a-zA-Z'-]+`. -/
def nameWordCs (cs : List Char) : Option (List Char × List Char) :=
  match cs with
  | c :: rest =>
    if isUpperCh c then
      let pr := takeRun nameTailCh rest
      if pr.1 = [] then none else some (c :: pr.1, pr.2)
    else none
  | [] => none

/-- Name word under the `i` flag: `[A-Z]` then matches any letter. -/
def nameWordCi (cs : List Char) : Option (List Char × List Char) :=
  match cs with
  | c :: rest =>
    if isLetterCh c then
      let pr := takeRun nameTailCh rest
      if pr.1 = [] then none else some (c :: pr.1, pr.2)
    else none
  | [] => none

/-- One repetition `\s+[A-Z][a-zA-Z'-]+` (case-insensitive variant). -/
def wsWordCiK (k : List Char → Option α) (cs : List Char) : Option α :=
  plusCh isJsWs (fun r => (nameWordCi r).bind (fun pr => k pr.2)) cs

/-- One repetition `\s+[A-Z][a-zA-Z'-]+` (case-sensitive variant). -/
def wsWordCsK (k : List Char → Option α) (cs : List Char) : Option α :=
  plusCh isJsWs (fun r => (nameWordCs r).bind (fun pr => k pr.2)) cs

/-- `[A-Z][a-zA-Z'-]+(?:\s+[A-Z][a-zA-Z'-]+){1,3}` under `i`: the rest
after the full name sequence. -/
def nameSeqCi (cs : List Char) : Option (List Char) :=
  (nameWordCi cs).bind (fun pr => repG wsWordCiK some 1 3 pr.2)

/-- Position matcher for `labeledNameRegex` (line 229), returning
capture group 1. -/
def labeledNameAt (prev : Option Char) (cs : List Char) : Option (List Char) :=
  if wbBefore prev then
    altK (fun r => (nameSeqCi r).map (fun rest => r.take (r.length - rest.length)))
      [fun k => litCIK "name".data (labelSepK k),
       fun k => litCIK "full".data (plusCh isJsWs (litCIK "name".data (labelSepK k))),
       fun k => litCIK "resume".data (plusCh isJsWs (litCIK "of".data (plusCh isJsWs k))),
       fun k => litCIK "cv".data (plusCh isJsWs (litCIK "of".data (plusCh isJsWs k)))] cs
  else none

/-- Multiline start-of-line test for the `^` anchor under the `m` flag. -/
def atLineStart (prev : Option Char) : Bool :=
  match prev with
  | none => true
  | some c => c = '\n'

/-- Position matcher for `firstLineRegex`
`^([A-Z][a-zA-Z'-]+(?:\s+[A-Z][a-zA-Z'-]+){1,3})$` (`m`), returning the
capture. -/
def firstLineAt (prev : Option Char) (cs : List Char) : Option (List Char) :=
  if atLineStart prev then
    ((nameWordCs cs).bind (fun pr =>
      repG wsWordCsK (fun r =>
        match r with
        | [] => some r
        | '\n' :: _ => some r
        | _ => none) 1 3 pr.2)).map
      (fun rest => cs.take (cs.length - rest.length))
  else none

/-- Position matcher for `contactNameRegex`
`([A-Z][a-zA-Z'-]+(?:\s+[A-Z][a-zA-Z'-]+){1,3})\s*(?:\n|$)` (no flags),
returning the capture. -/
def contactNameAt (_ : Option Char) (cs : List Char) : Option (List Char) :=
  ((nameWordCs cs).bind (fun pr =>
    repG wsWordCsK (fun r =>
      (starCh isJsWs (fun r2 =>
        match r2 with
        | [] => some ()
        | '\n' :: _ => some ()
        | _ => none) r).map (fun _ => r)) 1 3 pr.2)).map
    (fun rest => cs.take (cs.length - rest.length))

/-- Position matcher for `fallbackRegex`
`([A-Z][a-zA-Z'-]+)\s+(?:([A-Z][a-zA-Z'-]+)\s+)?([A-Z][a-zA-Z'-]+)`
(no flags), returning the three capture groups. -/
def fallbackNameAt (_ : Option Char) (cs : List Char) :
    Option (List Char × Option (List Char) × List Char) :=
  (nameWordCs cs).bind (fun pr1 =>
    let pw := takeRun isJsWs pr1.2
    if pw.1 = [] then none else
    match (nameWordCs pw.2).bind (fun pr2 =>
        let pw2 := takeRun isJsWs pr2.2
        if pw2.1 = [] then none else
        (nameWordCs pw2.2).map (fun pr3 => (pr1.1, some pr2.1, pr3.1))) with
    | some r => some r
    | none =>
      (nameWordCs pw.2).map (fun pr3 => (pr1.1, (none : Option (List Char)), pr3.1)))

structure NameParts where
  firstName : String
  middleName : String
  lastName : String
  deriving DecidableEq, Repr

/-- Separator of `split(/\s+/)`. -/
def wsPlusSepAt (cs : List Char) : Option Nat :=
  let pr := takeRun isJsWs cs
  if pr.1 = [] then none else some pr.1.length

def wsSplitPlus (cs : List Char) : List (List Char) := splitReF wsPlusSepAt cs

/-- Embedding of `parseFullName` (lines 277–299). -/
def parseFullName (fullName : String) : NameParts :=
  match wsSplitPlus (jsTrim fullName.data) with
  | [] => ⟨"", "", ""⟩
  | [a] => ⟨String.mk a, "", ""⟩
  | [a, b] => ⟨String.mk a, "", String.mk b⟩
  | a :: b :: c :: rest =>
    let tail := b :: c :: rest
    ⟨String.mk a,
     String.intercalate " " ((tail.dropLast).map String.mk),
     String.mk (tail.getLastD [])⟩

/-- Embedding of `extractName` (lines 224–270): labeled name, then a
standalone capitalized line, then a name inside the contact section,
then the generic two-or-three-word fallback. -/
def extractName (text : String) : NameParts :=
  match findFirst labeledNameAt text.data with
  | some (_, cap) => parseFullName (String.mk (jsTrim cap))
  | none =>
  match findFirst firstLineAt text.data with
  | some (_, cap) => parseFullName (String.mk (jsTrim cap))
  | none =>
    let contactSection :=
      extractSection text ["contact", "personal information", "personal details"]
    match (if contactSection ≠ "" then findFirst contactNameAt contactSection.data
           else none) with
    | some (_, cap) => parseFullName (String.mk (jsTrim cap))
    | none =>
      match findFirst fallbackNameAt text.data with
      | some (_, w1, w2, w3) =>
        ⟨jsOr (String.mk w1) "",
         jsOr (String.mk (w2.getD [])) "",
         jsOr (String.mk w3) (jsOr (String.mk (w2.getD [])) "")⟩
      | none => ⟨"", "", ""⟩

/-! Skills, languages, education and certifications extractors. -/

/-- General word boundary between a matched last character and the rest. -/
def wbAfterCh (lastCh : Char) : List Char → Bool
  | [] => isWordCh lastCh
  | c :: _ => isWordCh lastCh ≠ isWordCh c

/-- Ordered case-sensitive literal alternation with backtracking. -/
def altLitsK (k : List Char → Option α) : List (List Char) → List Char → Option α
  | [], _ => none
  | pat :: pats, cs =>
    match dropLit pat cs with
    | some r =>
      match k r with
      | some v => some v
      | none => altLitsK k pats cs
    | none => altLitsK k pats cs

/-- Optional case-insensitive literal alternation `(?:a|b|…)?`. -/
def optAltLitsCIK (pats : List (List Char)) (k : List Char → Option α)
    (cs : List Char) : Option α :=
  match altLitsCIK (fun _ r => k r) pats cs with
  | some v => some v
  | none => k cs

/-- Test for a constructed regex `\b<literal>\b` with the `i` flag
(`new RegExp('\\b' + w + '\\b', 'i').test(text)`). -/
def wordLitTestCI (pat : List Char) (cs : List Char) : Bool :=
  (findFirst (fun prev s =>
    if wbBefore prev then
      (dropLitCI pat s).bind (fun r =>
        if wbAfterCh (pat.getLastD ' ') r then some () else none)
    else none) cs).isSome

/-- Test for `\b(?:alt|…)\b` where every alternative is given as a
matcher in continuation style; the trailing `\b` is checked inside the
continuation so that alternation backtracking is honoured. -/
def wordAltsTest
    (alts : List ((List Char → Option Unit) → List Char → Option Unit))
    (cs : List Char) : Bool :=
  (findFirst (fun prev s =>
    if wbBefore prev then
      altK (fun r =>
        let consumed := s.take (s.length - r.length)
        if wbAfterCh (consumed.getLastD ' ') r then some () else none) alts s
    else none) cs).isSome

def dedupeGo : List (List Char) → List (List Char) → List (List Char)
  | [], _ => []
  | x :: xs, seen =>
    if x ∈ seen then dedupeGo xs seen else x :: dedupeGo xs (x :: seen)

/-- `[...new Set(xs)]`: deduplication keeping first occurrences. -/
def dedupeKeepFirst (xs : List (List Char)) : List (List Char) := dedupeGo xs []

def bulletCh (c : Char) : Bool := c = '•' || c = '-' || c = '*' || c = '+'

def bulletCapCh (c : Char) : Bool := !bulletCh c && c ≠ '\n'

/-- Position matcher for the bulleted-item pattern
`(?:•|-|\*|\+)\s*([^•\-\*\+\n]+)` (`g`), returning the whole match. -/
def bulletItemAt (_ : Option Char) (cs : List Char) : Option (Nat × List Char) :=
  match cs with
  | b :: r0 =>
    if bulletCh b then
      (starCh isJsWs (plusCh bulletCapCh some) r0).map
        (fun rest =>
          (cs.length - rest.length, cs.take (cs.length - rest.length)))
    else none
  | [] => none

/-- Cleanup `skill.replace(/^[•\-\*\+\s]+/, '')`. -/
def stripLeadBulletWs (cs : List Char) : List Char :=
  cs.dropWhile (fun c => bulletCh c || isJsWs c)

/-- Position matcher for the comma-run pattern `([^,\n]+(?:,\s*|$))`
(`g`), returning the whole match (`$` is end of the string: no `m`
flag). -/
def commaItemAt (_ : Option Char) (cs : List Char) : Option (Nat × List Char) :=
  let pr := takeRun (fun c => c ≠ ',' && c ≠ '\n') cs
  if pr.1 = [] then none
  else
    match pr.2 with
    | ',' :: r2 =>
      let w := takeRun isJsWs r2
      let len := pr.1.length + 1 + w.1.length
      some (len, cs.take len)
    | [] => some (pr.1.length, pr.1)
    | _ => none

/-- Cleanup `skill.replace(/,$/, '')`. -/
def dropTrailingComma (cs : List Char) : List Char :=
  match cs.reverse with
  | ',' :: r => r.reverse
  | _ => cs

/-- Embedding of `extractSkills` (lines 578–627). -/
def extractSkills (text : String) : String :=
  let skillsSection := extractSection text
    ["skills", "technical skills", "core competencies", "key skills",
     "professional skills", "expertise", "proficiencies", "qualifications"]
  if skillsSection = "" then "" else
  let sec := skillsSection.data
  let skills1 := (globalMatches bulletItemAt sec).foldl (fun acc m =>
    let cleaned := jsTrim (stripLeadBulletWs m.2.2)
    if cleaned ≠ [] ∧ cleaned ∉ acc then acc ++ [cleaned] else acc) []
  let skills2 := (globalMatches commaItemAt sec).foldl (fun acc m =>
    let cleaned := jsTrim (dropTrailingComma m.2.2)
    if cleaned ≠ [] ∧ cleaned ∉ acc ∧ cleaned.length < 50 then acc ++ [cleaned]
    else acc) skills1
  let skills3 := (splitNl sec).foldl (fun acc line =>
    let cl := jsTrim line
    if cl ≠ [] ∧ containsLit "skill".data (lowerStr cl) = false ∧ cl.length < 50 ∧ cl ∉ acc
    then acc ++ [cl] else acc) skills2
  String.intercalate ", " ((dedupeKeepFirst skills3).map String.mk)

/-- Separator of `split(/,|;/)`. -/
def commaSemiSepAt (cs : List Char) : Option Nat :=
  match cs with
  | c :: _ => if c = ',' || c = ';' then some 1 else none
  | [] => none

/-- `line.endsWith(':') || line.endsWith('-')`. -/
def endsColonDash (cs : List Char) : Bool :=
  match cs.reverse with
  | ':' :: _ => true
  | '-' :: _ => true
  | _ => false

/-- `replace(/[:|-]$/, '')`: drop a trailing `:`, `|` or `-`. -/
def dropTrailColonPipeDash (cs : List Char) : List Char :=
  match cs.reverse with
  | c :: r => if c = ':' || c = '|' || c = '-' then r.reverse else cs
  | [] => cs

/-- `\w+(?:\s+\w+)*` in continuation style. -/
def wordRunK (k : List Char → Option α) (cs : List Char) : Option α :=
  plusCh isWordCh
    (fun r => starG (fun k2 => plusCh isJsWs (plusCh isWordCh k2)) k (r.length + 1) r) cs

def profLevels : List (List Char) :=
  (["beginner", "intermediate", "advanced", "expert", "proficient", "fluent",
    "native", "basic", "working knowledge", "professional"]).map String.data

/-- Position matcher for the proficiency pattern
`(\w+(?:\s+\w+)*)\s*[-–:]\s*(beginner|…|professional)` (`gi`),
returning match length, skill capture and level capture. -/
def proficiencyAt (_ : Option Char) (cs : List Char) :
    Option (Nat × List Char × List Char) :=
  wordRunK (fun r1 =>
    let cap1 := cs.take (cs.length - r1.length)
    starCh isJsWs (fun r2 =>
      match r2 with
      | c :: r3 =>
        if c = '-' || c = '–' || c = ':' then
          starCh isJsWs (fun r4 =>
            altLitsCIK (fun w r5 => some (cs.length - r5.length, cap1, w))
              profLevels r4) r3
        else none
      | [] => none) r1) cs

def commonTechLits : List (List Char) :=
  (["java", "python", "javascript", "js", "typescript", "ts", "c++", "c#",
    "ruby", "php", "swift", "kotlin", "go", "rust", "html", "css", "sql",
    "nosql", "react", "angular", "vue", "node", "express", "django", "flask",
    "spring", "docker", "kubernetes", "aws", "azure", "gcp", "git", "github",
    "gitlab", "bitbucket", "jira", "agile", "scrum", "machine learning",
    "ml", "ai", "data science", "blockchain"]).map String.data

/-- Position matcher for the common-technology vocabulary pattern
`\b(java|python|…|blockchain)\b` (`gi`). -/
def commonTechAt (prev : Option Char) (cs : List Char) : Option (Nat × List Char) :=
  if wbBefore prev then
    altLitsCIK (fun w r =>
      if wbAfterCh (w.getLastD ' ') r then some (w.length, w) else none)
      commonTechLits cs
  else none

/-- The whole-document fallback scan of `extractTechnicalSkills`
(lines 707–720): all vocabulary matches, lowercased, first occurrences
kept (the `Set`). -/
def commonTechScan (cs : List Char) : List (List Char) :=
  dedupeKeepFirst ((globalMatches commonTechAt cs).map (fun m => lowerStr m.2.2))

/-- The category/lines loop of `extractTechnicalSkills`
(lines 662–691). -/
def techLinesLoop (lines : List (List Char)) (start : List (List Char)) :
    List (List Char) :=
  (lines.foldl (fun (st : List (List Char) × List Char) line =>
    let acc := st.1
    let currentCategory := st.2
    let cleaned := jsTrim line
    if endsColonDash cleaned then
      (acc, jsTrim (dropTrailColonPipeDash cleaned))
    else if cleaned ≠ [] ∧ cleaned.length < 100 then
      let lineSkills := ((splitReF commaSemiSepAt cleaned).map jsTrim).filter (· ≠ [])
      if lineSkills ≠ [] then
        if currentCategory ≠ [] then
          (acc ++ [currentCategory ++ (": ").data ++
            (String.intercalate ", " (lineSkills.map String.mk)).data], [])
        else
          (lineSkills.foldl (fun a s => if s ∈ a then a else a ++ [s]) acc,
           currentCategory)
      else (acc, currentCategory)
    else (acc, currentCategory)) (start, [])).1

/-- The section-synonym list of `extractTechnicalSkills` (lines 636–642). -/
def techHeaders : List String :=
  ["technical skills", "technical expertise", "technical proficiencies",
   "programming languages", "technologies", "tools", "software", "frameworks",
   "development skills", "computer skills", "technical competencies",
   "computational skills", "digital skills", "it skills", "coding skills",
   "programming skills", "technical tools", "development tools"]

/-- The skills accumulated from the located technical section by the
bulleted, category-line and proficiency patterns (lines 649–704). -/
def techFromSection (sec : List Char) : List (List Char) :=
  let ts1 := (globalMatches bulletItemAt sec).foldl (fun acc m =>
    let cleaned := jsTrim (stripLeadBulletWs m.2.2)
    if cleaned ≠ [] ∧ cleaned ∉ acc then acc ++ [cleaned] else acc) []
  let ts2 := techLinesLoop (splitNl sec) ts1
  (globalMatches proficiencyAt sec).foldl (fun acc m =>
    let skill := jsTrim m.2.2.1
    let level := jsTrim m.2.2.2
    let formatted := skill ++ (" - ").data ++ level
    if skill ≠ [] ∧ level ≠ [] ∧ formatted ∉ acc then acc ++ [formatted] else acc) ts2

/-- Embedding of `extractTechnicalSkills` (lines 634–723).  Note that a
failed section search returns the empty string immediately: the
whole-document vocabulary fallback only runs when a section was found
but produced zero skills. -/
def extractTechnicalSkills (text : String) : String :=
  let technicalSection := extractSection text techHeaders
  if technicalSection = "" then "" else
  let ts3 := techFromSection technicalSection.data
  let ts4 := if ts3.length = 0 then ts3 ++ commonTechScan text.data else ts3
  String.intercalate "\n" (ts4.map String.mk)

def commonSoftSkills : List (List Char) :=
  (["communication", "teamwork", "leadership", "problem solving",
    "critical thinking", "adaptability", "flexibility", "time management",
    "organization", "creativity", "interpersonal", "negotiation",
    "conflict resolution", "decision making", "emotional intelligence",
    "attention to detail", "analytical", "presentation", "public speaking",
    "writing", "collaboration", "team player", "self-motivated", "proactive",
    "initiative", "multitasking", "planning", "prioritization",
    "customer service", "client relations"]).map String.data

/-- Embedding of `extractSoftSkillsFromText` (lines 756–803). -/
def extractSoftSkillsFromText (cs : List Char) : String :=
  let ss1 := (globalMatches bulletItemAt cs).foldl (fun acc m =>
    let cleaned := jsTrim (stripLeadBulletWs m.2.2)
    if cleaned ≠ [] ∧ cleaned ∉ acc then acc ++ [cleaned] else acc) []
  let ss2 := (globalMatches commaItemAt cs).foldl (fun acc m =>
    let cleaned := jsTrim (dropTrailingComma m.2.2)
    if cleaned ≠ [] ∧ cleaned ∉ acc ∧ cleaned.length < 50 then acc ++ [cleaned]
    else acc) ss1
  let ss3 :=
    if ss2.length = 0 then
      commonSoftSkills.foldl (fun acc w =>
        if wordLitTestCI w cs then acc ++ [w] else acc) ss2
    else ss2
  String.intercalate ", " ((dedupeKeepFirst ss3).map String.mk)

/-- Embedding of `extractSoftSkills` (lines 730–749). -/
def extractSoftSkills (text : String) : String :=
  let softSkillsSection := extractSection text
    ["soft skills", "interpersonal skills", "personal skills", "professional skills",
     "transferable skills", "core competencies", "strengths", "attributes",
     "personal attributes", "personal qualities", "key competencies",
     "communication skills", "leadership skills", "management skills",
     "people skills", "teamwork skills"]
  if softSkillsSection = "" then
    let summarySection := extractSection text
      ["summary", "profile", "about me", "professional summary", "career objective"]
    if summarySection ≠ "" then extractSoftSkillsFromText summarySection.data
    else ""
  else extractSoftSkillsFromText softSkillsSection.data

/-- `[A-Za-z]+(?:\s+[A-Za-z]+)*` in continuation style. -/
def alphaRunsK (k : List Char → Option α) (cs : List Char) : Option α :=
  plusCh isLetterCh
    (fun r => starG (fun k2 => plusCh isJsWs (plusCh isLetterCh k2)) k (r.length + 1) r) cs

/-- Position matcher for `([A-Za-z]+(?:\s+[A-Za-z]+)*)\s*[-:–]\s*([A-Za-z\s]+)`
(`g`, case-sensitive), returning the whole match. -/
def langWithLevelAt (_ : Option Char) (cs : List Char) : Option (Nat × List Char) :=
  alphaRunsK (fun r1 =>
    starCh isJsWs (fun r2 =>
      match r2 with
      | c :: r3 =>
        if c = '-' || c = ':' || c = '–' then
          starCh isJsWs (plusCh (fun ch => isLetterCh ch || isJsWs ch) some) r3
        else none
      | [] => none) r1) cs |>.map
    (fun rest => (cs.length - rest.length, cs.take (cs.length - rest.length)))

def cefrLits : List (List Char) :=
  (["A1", "A2", "B1", "B2", "C1", "C2"]).map String.data

/-- Position matcher for the CEFR pattern
`([A-Za-z]+(?:\s+[A-Za-z]+)*)\s*[-:–]?\s*(?:CEFR)?\s*(A1|A2|B1|B2|C1|C2)` (`gi`). -/
def cefrAt (_ : Option Char) (cs : List Char) : Option (Nat × List Char × List Char) :=
  alphaRunsK (fun r1 =>
    let cap1 := cs.take (cs.length - r1.length)
    starCh isJsWs (optChCl (fun c => c = '-' || c = ':' || c = '–')
      (starCh isJsWs (optG (fun k2 => litCIK "CEFR".data k2)
        (starCh isJsWs (fun r4 =>
          altLitsCIK (fun w r5 => some (cs.length - r5.length, cap1, w))
            cefrLits r4))))) r1) cs

def langLevelWords : List (List Char) :=
  (["native", "fluent", "proficient", "advanced", "intermediate", "beginner",
    "basic", "elementary", "professional", "working", "limited"]).map String.data

/-- Position matcher for the descriptive-level pattern
`([A-Za-z]+(?:\s+[A-Za-z]+)*)\s*[-:–]?\s*(native|fluent|…|limited)` (`gi`). -/
def langLevelAt (_ : Option Char) (cs : List Char) :
    Option (Nat × List Char × List Char) :=
  alphaRunsK (fun r1 =>
    let cap1 := cs.take (cs.length - r1.length)
    starCh isJsWs (optChCl (fun c => c = '-' || c = ':' || c = '–')
      (starCh isJsWs (fun r4 =>
        altLitsCIK (fun w r5 => some (cs.length - r5.length, cap1, w))
          langLevelWords r4))) r1) cs

def commonLanguages : List (List Char) :=
  (["English", "Spanish", "French", "German", "Chinese", "Japanese",
    "Arabic", "Russian", "Portuguese", "Italian"]).map String.data

/-- Embedding of `extractLanguages` (lines 810–895).  The final join has
no `Set` deduplication in the source. -/
def extractLanguages (text : String) : String :=
  let languagesSection := extractSection text
    ["languages", "language skills", "language proficiency", "linguistic skills",
     "foreign languages", "spoken languages", "language competencies",
     "multilingual skills", "language qualifications", "language certificates"]
  if languagesSection = "" then "" else
  let sec := languagesSection.data
  let ls1 := (globalMatches bulletItemAt sec).foldl (fun acc m =>
    let cleaned := jsTrim (stripLeadBulletWs m.2.2)
    if cleaned ≠ [] ∧ cleaned ∉ acc then acc ++ [cleaned] else acc) []
  let ls2 := (splitNl sec).foldl (fun acc line =>
    let cl := jsTrim line
    if cl ≠ [] ∧ containsLit "language".data (lowerStr cl) = false ∧
        cl.length < 50 ∧ cl ∉ acc
    then acc ++ [cl] else acc) ls1
  let ls3 := (globalMatches langWithLevelAt sec).foldl (fun acc m =>
    let t := jsTrim m.2.2
    if t ∉ acc then acc ++ [t] else acc) ls2
  let ls4 := (globalMatches cefrAt sec).foldl (fun acc m =>
    let formatted := jsTrim m.2.2.1 ++ (" - ").data ++ (m.2.2.2.map upperCh)
    if formatted ∉ acc then acc ++ [formatted] else acc) ls3
  let ls5 := (globalMatches langLevelAt sec).foldl (fun acc m =>
    let formatted := jsTrim m.2.2.1 ++ (" - ").data ++ jsTrim m.2.2.2
    if formatted ∉ acc then acc ++ [formatted] else acc) ls4
  let ls6 :=
    if ls5.length = 0 then
      commonLanguages.foldl (fun acc w =>
        if wordLitTestCI w text.data then acc ++ [w] else acc) ls5
    else ls5
  String.intercalate ", " (ls6.map String.mk)

/-! Education extractor (lines 462–571) and the education-level
classifier (lines 191–217). -/

structure EducationRecord where
  collegeName : String
  degree : String
  universityName : String
  specialization : String
  graduationYear : String
  cgpa : String
  startYear : String
  endYear : String
  location : String
  deriving DecidableEq, Repr

def nonNlCommaCh (c : Char) : Bool := c ≠ '\n' && c ≠ ','

/-- Position matcher for a labeled pattern `(?:lab|…)\s*:?\s*([^\n,]+)` (`i`). -/
def labeledCapAt (labels : List (List Char)) (_ : Option Char) (cs : List Char) :
    Option (List Char) :=
  altLitsCIK (fun _ r0 =>
    labelSepK (fun r1 =>
      plusCh nonNlCommaCh (fun r2 => some (r1.take (r1.length - r2.length))) r1) r0)
    labels cs

/-- Embedding of `extractPattern` (lines 1754–1757) over a position
matcher returning capture group 1. -/
def extractPattern (cs : List Char)
    (tryAt : Option Char → List Char → Option (List Char)) : String :=
  match findFirst tryAt cs with
  | some (_, cap) => String.mk (jsTrim cap)
  | none => ""

/-- Labeled graduation year `(?:year|graduated|…)\s*:?\s*([0-9]{4})` (`i`). -/
def labeledYearAt (labels : List (List Char)) (_ : Option Char) (cs : List Char) :
    Option (List Char) :=
  altLitsCIK (fun _ r0 =>
    labelSepK (fun r1 =>
      (repChExact isDigitCh 4 r1).map (fun _ => r1.take 4)) r0) labels cs

/-- Labeled CGPA `(?:cgpa|gpa|…)\s*:?\s*([0-9.]+%?)` (`i`). -/
def labeledCgpaAt (labels : List (List Char)) (_ : Option Char) (cs : List Char) :
    Option (List Char) :=
  altLitsCIK (fun _ r0 =>
    labelSepK (fun r1 =>
      let pr := takeRun (fun c => isDigitCh c || c = '.') r1
      if pr.1 = [] then none
      else
        match pr.2 with
        | '%' :: _ => some (pr.1 ++ ['%'])
        | _ => some pr.1) r0) labels cs

def alphaWsCh (c : Char) : Bool := isLetterCh c || isJsWs c

/-- Position matcher for the location fallback
`([A-Z][a-zA-Z\s]+,\s*[A-Z][a-zA-Z\s]+|[A-Z][a-zA-Z\s]+\s*\([A-Z][a-zA-Z\s]+\))`
(case-sensitive), returning the capture (= whole match). -/
def locationFallbackAt (_ : Option Char) (cs : List Char) : Option (List Char) :=
  ((match cs with
    | c :: r0 =>
      if isUpperCh c then
        plusCh alphaWsCh (fun r1 =>
          match r1 with
          | ',' :: r2 =>
            (match r2.dropWhile isJsWs with
             | c2 :: r3 => if isUpperCh c2 then plusCh alphaWsCh some r3 else none
             | [] => none)
          | _ => none) r0
      else none
    | [] => none) <|>
   (match cs with
    | c :: r0 =>
      if isUpperCh c then
        plusCh alphaWsCh (starCh isJsWs (litK ['('] (fun r2 =>
          match r2 with
          | c2 :: r3 =>
            if isUpperCh c2 then plusCh alphaWsCh (litK [')'] some) r3 else none
          | [] => none))) r0
      else none
    | [] => none) : Option (List Char)).map
    (fun rest => cs.take (cs.length - rest.length))

/-- Degree-abbreviation alternatives of `degreeRegex` (line 530), in
source order; `some post` marks an optional dot between the parts. -/
def degreePairs : List (List Char × Option (List Char)) :=
  [("B".data, some "Tech".data), ("M".data, some "Tech".data),
   ("B".data, some "E".data), ("M".data, some "E".data),
   ("B".data, some "S".data), ("M".data, some "S".data),
   ("Ph".data, some "D".data), ("B".data, some "A".data),
   ("M".data, some "A".data), ("MBA".data, none), ("PGDM".data, none),
   ("Bachelor".data, none), ("Master".data, none), ("Doctorate".data, none),
   ("BSc".data, none), ("MSc".data, none), ("BBA".data, none),
   ("BCA".data, none), ("MCA".data, none), ("LLB".data, none),
   ("LLM".data, none), ("MD".data, none), ("MBBS".data, none)]

/-- One degree abbreviation (`X\.?Y` or a plain literal), with the
trailing-boundary continuation. -/
def degreeAbbrevMatch (k : List Char → List Char → Option α) :
    List (List Char × Option (List Char)) → List Char → Option α
  | [], _ => none
  | (pre, post) :: rest, cs =>
    let attempt : Option α :=
      match dropLitCIKeep pre cs with
      | some (w1, r1) =>
        match post with
        | none => k w1 r1
        | some p =>
          (match r1 with
           | '.' :: r2 =>
             match dropLitCIKeep p r2 with
             | some (w2, r3) =>
               match k (w1 ++ '.' :: w2) r3 with
               | some v => some v
               | none =>
                 match dropLitCIKeep p r1 with
                 | some (w2', r3') => k (w1 ++ w2') r3'
                 | none => none
             | none =>
               match dropLitCIKeep p r1 with
               | some (w2', r3') => k (w1 ++ w2') r3'
               | none => none
           | _ =>
             match dropLitCIKeep p r1 with
             | some (w2', r3') => k (w1 ++ w2') r3'
             | none => none)
      | none => none
    match attempt with
    | some v => some v
    | none => degreeAbbrevMatch k rest cs

/-- Position matcher for `degreeRegex`
`\b(B\.?Tech|M\.?Tech|…|MBBS)\b[^\n,]*(?:in|of)?\s*([^\n,]+)?` (`i`):
capture 1 (the abbreviation as matched) and optional capture 2. -/
def degreeAt (prev : Option Char) (cs : List Char) :
    Option (List Char × Option (List Char)) :=
  if wbBefore prev then
    degreeAbbrevMatch (fun w r1 =>
      if wbAfterCh (w.getLastD ' ') r1 then
        starCh nonNlCommaCh (optAltLitsCIK ["in".data, "of".data]
          (starCh isJsWs (fun r4 =>
            match takeRun nonNlCommaCh r4 with
            | ([], _) => some (w, none)
            | (run, _) => some (w, some run)))) r1
      else none) degreePairs cs
  else none

/-- Position matcher for the bare-year fallback `\b(20\d{2}|19\d{2})\b`. -/
def bareYearAt (prev : Option Char) (cs : List Char) : Option (List Char) :=
  if wbBefore prev then
    (year4 cs).bind (fun pr => if wbAfter pr.2 then some pr.1 else none)
  else none

def instCh (c : Char) : Bool :=
  isLetterCh c || isJsWs c || c = '&' || c = ',' || c = apos || c = '.' || c = '-'

def instSuffixes : List (List Char) :=
  (["University", "College", "Institute", "School", "Academy", "Center",
    "Centre"]).map String.data

/-- Position matcher for `institutionRegex`
`([A-Z][A-Za-z\s&,'.\-]+(?:University|College|…|Centre))` (case-sensitive). -/
def institutionAt (_ : Option Char) (cs : List Char) : Option (List Char) :=
  ((match cs with
   | c :: r0 =>
     if isUpperCh c then plusCh instCh (fun r1 => altLitsK some instSuffixes r1) r0
     else none
   | [] => none : Option (List Char))).map
    (fun rest => cs.take (cs.length - rest.length))

def eduSkipWords : List (List Char) :=
  (["degree", "year", "gpa", "grade", "score", "major", "field",
    "specialization"]).map String.data

/-- The line-by-line institution scan (lines 550–567). -/
def institutionLineScan : List (List Char) → String
  | [] => ""
  | line :: rest =>
    if eduSkipWords.any (fun w => containsLit w (lowerStr line)) then
      institutionLineScan rest
    else
      match findFirst institutionAt line with
      | some (_, cap) => String.mk (jsTrim cap)
      | none => institutionLineScan rest

/-- Embedding of `extractEducation` (lines 462–571). -/
def extractEducation (currentYear : Nat) (text : String) : EducationRecord :=
  let educationSection := extractSection text
    ["education", "academic background", "academic qualifications",
     "educational qualifications", "academic history", "academic record",
     "academic profile"]
  if educationSection = "" then ⟨"", "", "", "", "", "", "", "", ""⟩ else
  let sec := educationSection.data
  let collegeName := extractPattern sec
    (labeledCapAt (["college", "school", "institute", "institution"].map String.data))
  let degree0 := extractPattern sec
    (labeledCapAt (["degree", "qualification", "program", "course", "diploma"].map String.data))
  let universityName0 := extractPattern sec
    (labeledCapAt (["university", "institute", "academy", "alma mater"].map String.data))
  let specialization0 := extractPattern sec
    (labeledCapAt (["specialization", "major", "field", "concentration",
      "subject", "discipline", "focus"].map String.data))
  let graduationYear0 := extractPattern sec
    (labeledYearAt (["year", "graduated", "graduation", "completed", "class of",
      "completion", "finished"].map String.data))
  let cgpa := extractPattern sec
    (labeledCgpaAt (["cgpa", "gpa", "grade", "score", "percentage", "marks"].map String.data))
  let dr := findFirst (fun _ s => dateRangeP1At s) sec
  let startYear := match dr with
                   | some (_, a, _) => String.mk a
                   | none => ""
  let endYear := match dr with
                 | some (_, _, b) =>
                   if isPresentWord b then toString currentYear else String.mk b
                 | none => ""
  let graduationYear1 :=
    match dr with
    | some _ =>
      if graduationYear0 = "" ∧ endYear ≠ toString currentYear then endYear
      else graduationYear0
    | none => graduationYear0
  let location0 := extractPattern sec
    (labeledCapAt (["location", "city", "place", "campus"].map String.data))
  let location :=
    if location0 = "" then
      match findFirst locationFallbackAt sec with
      | some (_, cap) => String.mk (jsTrim cap)
      | none => ""
    else location0
  let universityName1 :=
    if universityName0 = "" ∧ collegeName ≠ "" then collegeName else universityName0
  let degSpec :=
    if degree0 = "" then
      match findFirst degreeAt sec with
      | some (_, w, cap2) =>
        (String.mk (jsTrim w),
         match cap2 with
         | some c2 => String.mk (jsTrim c2)
         | none => specialization0)
      | none => (degree0, specialization0)
    else (degree0, specialization0)
  let graduationYear2 :=
    if graduationYear1 = "" then
      match findFirst bareYearAt sec with
      | some (_, y) => String.mk y
      | none => graduationYear1
    else graduationYear1
  let universityName2 :=
    if universityName1 = "" ∧ collegeName = "" then institutionLineScan (splitNl sec)
    else universityName1
  ⟨collegeName, degSpec.1, universityName2, degSpec.2, graduationYear2, cgpa,
   startYear, endYear, location⟩

/-- Alternation matchers for the `Intermediate` tier
`\b(?:intermediate|high school|secondary|12th|hsc)\b` (`i`). -/
def intermediateAlts :
    List ((List Char → Option Unit) → List Char → Option Unit) :=
  [fun k => litCIK "intermediate".data k,
   fun k => litCIK "high school".data k,
   fun k => litCIK "secondary".data k,
   fun k => litCIK "12th".data k,
   fun k => litCIK "hsc".data k]

/-- Alternation matchers for the `Graduate` tier
`\b(?:graduate|bachelor'?s|bachelors|b\.?tech|b\.?e|b\.?sc|b\.?a|b\.?com)\b` (`i`). -/
def graduateAlts :
    List ((List Char → Option Unit) → List Char → Option Unit) :=
  [fun k => litCIK "graduate".data k,
   fun k => litCIK "bachelor".data (optCh apos (litCIK "s".data k)),
   fun k => litCIK "bachelors".data k,
   fun k => litCIK "b".data (optCh '.' (litCIK "tech".data k)),
   fun k => litCIK "b".data (optCh '.' (litCIK "e".data k)),
   fun k => litCIK "b".data (optCh '.' (litCIK "sc".data k)),
   fun k => litCIK "b".data (optCh '.' (litCIK "a".data k)),
   fun k => litCIK "b".data (optCh '.' (litCIK "com".data k))]

/-- Alternation matchers for the `Post Graduate` tier
`\b(?:post[\s-]?graduate|master'?s|masters|m\.?tech|m\.?e|m\.?sc|m\.?a|m\.?com|mba|pgdm|ph\.?d|doctorate)\b` (`i`). -/
def postGraduateAlts :
    List ((List Char → Option Unit) → List Char → Option Unit) :=
  [fun k => litCIK "post".data
     (optChCl (fun c => isJsWs c || c = '-') (litCIK "graduate".data k)),
   fun k => litCIK "master".data (optCh apos (litCIK "s".data k)),
   fun k => litCIK "masters".data k,
   fun k => litCIK "m".data (optCh '.' (litCIK "tech".data k)),
   fun k => litCIK "m".data (optCh '.' (litCIK "e".data k)),
   fun k => litCIK "m".data (optCh '.' (litCIK "sc".data k)),
   fun k => litCIK "m".data (optCh '.' (litCIK "a".data k)),
   fun k => litCIK "m".data (optCh '.' (litCIK "com".data k)),
   fun k => litCIK "mba".data k,
   fun k => litCIK "pgdm".data k,
   fun k => litCIK "ph".data (optCh '.' (litCIK "d".data k)),
   fun k => litCIK "doctorate".data k]

/-- Embedding of `extractEducationLevel` (lines 191–217): the three
tiers are tested in object order against the whole text, then against
the education section. -/
def extractEducationLevel (text : String) : String :=
  if wordAltsTest intermediateAlts text.data then "Intermediate"
  else if wordAltsTest graduateAlts text.data then "Graduate"
  else if wordAltsTest postGraduateAlts text.data then "Post Graduate"
  else
    let educationSection := extractSection text
      ["education", "academic background", "academic qualifications"]
    if educationSection ≠ "" then
      if wordAltsTest intermediateAlts educationSection.data then "Intermediate"
      else if wordAltsTest graduateAlts educationSection.data then "Graduate"
      else if wordAltsTest postGraduateAlts educationSection.data then "Post Graduate"
      else ""
    else ""

def certWords : List (List Char) :=
  (["certifications", "certificates", "credentials"]).map String.data

/-- Global case-insensitive removal
`replace(/certifications|certificates|credentials/gi, '')`. -/
def removeAllCI (pats : List (List Char)) : Nat → List Char → List Char
  | 0, cs => cs
  | fuel + 1, cs =>
    match altLitsCIK (fun _ r => some r) pats cs with
    | some r => removeAllCI pats fuel r
    | none =>
      match cs with
      | [] => []
      | c :: cs' => c :: removeAllCI pats fuel cs'

/-- Embedding of `extractCertifications` (lines 1598–1607). -/
def extractCertifications (text : String) : String :=
  let certificationsSection :=
    extractSection text ["certifications", "certificates", "credentials"]
  if certificationsSection ≠ "" then
    String.mk (jsTrim
      (removeAllCI certWords (certificationsSection.data.length + 1)
        certificationsSection.data))
  else ""

/-! Project extractor (lines 903–1209). -/

structure Project where
  name : String
  description : String
  technologies : String
  githubLink : String
  liveLink : String
  startDate : String
  endDate : String
  role : String
  deriving DecidableEq, Repr

/-- The default record pushed when no project was found (lines 1111–1122). -/
def projectPlaceholder : Project :=
  ⟨"Project", "Please add your project description here", "", "", "", "", "", ""⟩

/-- Position matcher for the labeled GitHub-project pattern
`(?:github|repository|repo|source code|code)\s*:?\s*(…github\.com\/…)` (`i`). -/
def githubProjLabeledAt (_ : Option Char) (cs : List Char) : Option (List Char) :=
  altLitsCIK (fun _ r0 =>
    labelSepK (fun g0 =>
      (schemeCiK (wwwCiK (githubTailCiK some)) g0).map
        (fun rest => g0.take (g0.length - rest.length))) r0)
    (["github", "repository", "repo", "source code", "code"].map String.data) cs

/-- Embedding of `extractGithubProjectUrl` (lines 1132–1156). -/
def extractGithubProjectUrl (text : String) : Option String :=
  match findFirst githubProjLabeledAt text.data with
  | some (_, url) => some (ensureHttps (String.mk url))
  | none =>
    (findFirst githubBareAt text.data).map (fun m => ensureHttps (String.mk m.2))

/-- Domain-with-optional-path, case-sensitive (`[\w-]+\.[a-z]{2,}(?:\/[…]*)?`). -/
def domainPathCs (cs : List Char) : Option (List Char) :=
  let pr := takeRun wordDashCh cs
  if pr.1 = [] then none else
  match pr.2 with
  | '.' :: r2 =>
    let lr := takeRun isLowerCh r2
    if lr.1.length < 2 then none
    else
      match lr.2 with
      | '/' :: r3 => some ((takeRun pathCh r3).2)
      | _ => some lr.2
  | _ => none

/-- Position matcher for the labeled live-URL pattern
`(?:live|demo|website|deployed|production|app|application|site|preview)\s*:?\s*(url)`
(`i`). -/
def liveLabeledAt (_ : Option Char) (cs : List Char) : Option (List Char) :=
  altLitsCIK (fun _ r0 =>
    labelSepK (fun g0 =>
      (schemeCiK (wwwCiK (fun r => domainPathCi r)) g0).map
        (fun rest => g0.take (g0.length - rest.length))) r0)
    (["live", "demo", "website", "deployed", "production", "app",
      "application", "site", "preview"].map String.data) cs

/-- Position matcher for the bare live-URL pattern
`(?:https?:\/\/)?(?:www\.)?(?!github\.com)[\w-]+\.[a-z]{2,}(?:\/[…]*)?`
(case-sensitive). -/
def liveBareAt (_ : Option Char) (cs : List Char) : Option (List Char) :=
  let core : List Char → Option (List Char) := fun r =>
    if litAtFront "github.com".data r then none else domainPathCs r
  let branch : List Char → Option (List Char) := fun r =>
    (match dropLit "www.".data r with
     | some r2 => core r2
     | none => none) <|> core r
  ((match dropLit "https://".data cs with
    | some r => branch r
    | none => none) <|>
   (match dropLit "http://".data cs with
    | some r => branch r
    | none => none) <|>
   branch cs).map (fun rest => cs.take (cs.length - rest.length))

/-- Embedding of `extractLiveProjectUrl` (lines 1163–1187). -/
def extractLiveProjectUrl (text : String) : Option String :=
  match findFirst liveLabeledAt text.data with
  | some (_, url) => some (ensureHttps (String.mk url))
  | none =>
    (findFirst liveBareAt text.data).map (fun m => ensureHttps (String.mk m.2))

def roleCapCh (c : Char) : Bool := c ≠ '\n' && c ≠ ',' && c ≠ '.'

/-- Position matcher for `(?:as|worked as)\s+(?:a|an)?\s+([^\n,\.]+)` (`i`). -/
def roleAs2At (_ : Option Char) (cs : List Char) : Option (List Char) :=
  altLitsCIK (fun _ r0 =>
    plusCh isJsWs (optAltLitsCIK ["a".data, "an".data]
      (plusCh isJsWs (fun r2 =>
        plusCh roleCapCh (fun r3 => some (r2.take (r2.length - r3.length))) r2))) r0)
    ["as".data, "worked as".data] cs

/-- Embedding of `extractProjectRole` (lines 1194–1209). -/
def extractProjectRole (text : String) : Option String :=
  match findFirst
      (labeledCapAt (["role", "position", "responsibility", "title"].map String.data))
      text.data with
  | some (_, cap) => some (String.mk (jsTrim cap))
  | none =>
    match findFirst roleAs2At text.data with
    | some (_, cap) => some (String.mk (jsTrim cap))
    | none => none

/-- Tech labels of project strategy 1 (line 917). -/
def techLabelsP1 : List (List Char) :=
  (["technology", "tech stack", "tools", "languages", "framework",
    "library"]).map String.data

/-- Position matcher for `projectPattern1`
`(?:project|application|portfolio item|publication)\s*:?\s*([^\n]+)\n([^\n]+)(?:[\s\S]*?(?:tech…)\s*:?\s*([^\n]+))?`
(`gi`): match length and captures 1, 2 and optional 3.  The lazy
`[\s\S]*?` makes the optional group take the earliest tech label. -/
def projP1At (_ : Option Char) (cs : List Char) :
    Option (Nat × List Char × List Char × Option (List Char)) :=
  altLitsCIK (fun _ r0 =>
    labelSepK (fun r1 =>
      let c1 := takeRun nonNl r1
      if c1.1 = [] then none else
      match c1.2 with
      | '\n' :: r2 =>
        let c2 := takeRun nonNl r2
        if c2.1 = [] then none else
        let r3 := c2.2
        match findFirst (fun _ s =>
            altLitsCIK (fun _ s1 => labelSepK (fun s2 =>
              let c3 := takeRun nonNl s2
              if c3.1 = [] then none else some (c3.1, c3.2)) s1) techLabelsP1 s) r3 with
        | some (_, cap3, restAfter) =>
          some (cs.length - restAfter.length, c1.1, c2.1, some cap3)
        | none => some (cs.length - r3.length, c1.1, c2.1, none)
      | _ => none) r0)
    (["project", "application", "portfolio item", "publication"].map String.data) cs

/-- Tech-indicator labels of project strategy 2 (line 965). -/
def techLabelsP2 : List (List Char) :=
  (["technology", "tech stack", "tools", "languages", "built with",
    "developed using", "implemented with", "framework", "library",
    "technologies used"]).map String.data

/-- Labeled technology line `(?:labels)\s*:?\s*([^\n]+)` (`i`):
whole match and capture. -/
def techLabeledAt (labels : List (List Char)) (_ : Option Char) (cs : List Char) :
    Option (List Char × List Char) :=
  altLitsCIK (fun _ r0 =>
    labelSepK (fun r1 =>
      plusCh nonNl (fun r2 =>
        some (cs.take (cs.length - r2.length), r1.take (r1.length - r2.length))) r1) r0)
    labels cs

def usingCapCh (c : Char) : Bool := c ≠ '\n' && c ≠ '.' && c ≠ ','

/-- `using\s+([^\n.,]+(?:\s*,\s*[^\n.,]+)*)` / `with\s+(…)` (`i`):
whole match and capture. -/
def usingWithAt (word : List Char) (_ : Option Char) (cs : List Char) :
    Option (List Char × List Char) :=
  (dropLitCI word cs).bind (fun r0 =>
    plusCh isJsWs (fun r1 =>
      plusCh usingCapCh (fun r2 =>
        starG (fun k2 =>
          starCh isJsWs (litK [','] (starCh isJsWs (plusCh usingCapCh k2))))
          (fun r3 =>
            some (cs.take (cs.length - r3.length), r1.take (r1.length - r3.length)))
          (r2.length + 1) r2) r1) r0)

/-- The three tech indicators of strategy 2 tried in order
(lines 963–978): on success, technologies and the cleaned description. -/
def techFromContent (content : List Char) : List Char × List Char :=
  match findFirst (techLabeledAt techLabelsP2) content with
  | some (_, m0, cap) => (jsTrim cap, jsTrim (replaceFirstStr m0 content))
  | none =>
    match findFirst (usingWithAt "using".data) content with
    | some (_, m0, cap) => (jsTrim cap, jsTrim (replaceFirstStr m0 content))
    | none =>
      match findFirst (usingWithAt "with".data) content with
      | some (_, m0, cap) => (jsTrim cap, jsTrim (replaceFirstStr m0 content))
      | none => ([], content)

/-- Position matcher for `projectTitleRegex` `[•\-*]\s*([A-Z][^\n:]+)(?::|\n)`
(`g`, case-sensitive): match length and the capture. -/
def projTitleAt (_ : Option Char) (cs : List Char) : Option (Nat × List Char) :=
  match cs with
  | b :: r0 =>
    if b = '•' || b = '-' || b = '*' then
      starCh isJsWs (fun r1 =>
        match r1 with
        | c :: r2 =>
          if isUpperCh c then
            plusCh (fun ch => ch ≠ '\n' && ch ≠ ':') (fun r3 =>
              match r3 with
              | ':' :: r4 =>
                some (cs.length - r4.length, r1.take (r1.length - r3.length))
              | '\n' :: r4 =>
                some (cs.length - r4.length, r1.take (r1.length - r3.length))
              | _ => none) r2
          else none
        | [] => none) r0
    else none
  | [] => none

/-- Position matcher for `nextProjectMarker` `[•\-*]\s*[A-Z]` (`g`). -/
def projMarkerAt (_ : Option Char) (cs : List Char) : Option Unit :=
  match cs with
  | b :: r0 =>
    if b = '•' || b = '-' || b = '*' then
      match r0.dropWhile isJsWs with
      | c :: _ => if isUpperCh c then some () else none
      | [] => none
    else none
  | [] => none

/-- `exec` with an explicit `lastIndex`: leftmost match at or after `i`. -/
def execFrom (tryAt : Option Char → List Char → Option α) (cs : List Char)
    (i : Nat) : Option (Nat × α) :=
  let pr := advanceN none cs i
  scanFirst tryAt pr.1 i pr.2

/-- One record of project strategy 2 (lines 943–999). -/
def projFromP2 (sec : List Char) (j len : Nat) (cap : List Char) : Project :=
  let projectName := jsTrim cap
  let startIndex := j + len
  let remainder := sec.drop startIndex
  let endRel0 := match indexOfLit ['•'] remainder with
                 | some k => k
                 | none => sec.length - startIndex
  let endRel := match execFrom projMarkerAt sec startIndex with
                | some (j2, _) =>
                  if j2 - startIndex < endRel0 then j2 - startIndex else endRel0
                | none => endRel0
  let projectContent := jsTrim (remainder.take endRel)
  let td := techFromContent projectContent
  let contentStr := String.mk projectContent
  let dr := extractDateRange contentStr
  ⟨String.mk projectName, String.mk td.2, String.mk td.1,
   jsOrOpt (extractGithubProjectUrl contentStr) "",
   jsOrOpt (extractLiveProjectUrl contentStr) "",
   jsOr dr.startDate "", jsOr dr.endDate "",
   jsOrOpt (extractProjectRole contentStr) ""⟩

/-- Tech-line labels of project strategy 3 (line 1017); since the
trailing `\s*:?` can match empty, the `test` amounts to a substring
search. -/
def techLabelsP3 : List (List Char) :=
  (["technology", "tech stack", "tools", "languages", "built with",
    "developed using", "implemented with", "using", "with", "framework",
    "library", "technologies used"]).map String.data

/-- `techLine.match(/(?::|-)\s*(.+)$/)` at one position. -/
def colonDashCapAt (_ : Option Char) (cs : List Char) : Option (List Char) :=
  match cs with
  | c :: r0 =>
    if c = ':' || c = '-' then
      let w := takeRun isJsWs r0
      if w.2 ≠ [] then some w.2
      else
        match w.1.reverse with
        | lastW :: _ => some [lastW]
        | [] => none
    else none
  | [] => none

/-- `techLine.replace(/.*?(?::|-)\s*/i, '')`. -/
def dropToColonDash (line : List Char) : List Char :=
  match line.findIdx? (fun c => c = ':' || c = '-') with
  | some i => (line.drop (i + 1)).dropWhile isJsWs
  | none => line

/-- `Array.prototype.join` with a separator. -/
def joinSep (sep : List Char) : List (List Char) → List Char
  | [] => []
  | [x] => x
  | x :: y :: rest => x ++ sep ++ joinSep sep (y :: rest)

/-- One record of project strategy 3 for a block (lines 1006–1053);
`none` when the block is blank or has fewer than two lines. -/
def projFromBlock (block : List Char) : Option Project :=
  if jsTrim block = [] then none else
  match splitNl block with
  | line0 :: line1 :: restLines =>
    let lines := line0 :: line1 :: restLines
    let projectName := jsTrim line0
    let techLineIndex := lines.findIdx? (fun line =>
      techLabelsP3.any (fun w => containsLit w (lowerStr line)))
    let td :=
      match techLineIndex with
      | some i =>
        if 0 < i then
          let techLine := lines.getD i []
          let technologies :=
            match findFirst colonDashCapAt techLine with
            | some (_, cap) => jsTrim cap
            | none => jsTrim (dropToColonDash techLine)
          (technologies, jsTrim (joinSep [' '] ((lines.drop 1).take (i - 1))))
        else ([], jsTrim (joinSep [' '] (lines.drop 1)))
      | none => ([], jsTrim (joinSep [' '] (lines.drop 1)))
    let blockStr := String.mk block
    let dr := extractDateRange blockStr
    some ⟨String.mk projectName, String.mk td.2, String.mk td.1,
      jsOrOpt (extractGithubProjectUrl blockStr) "",
      jsOrOpt (extractLiveProjectUrl blockStr) "",
      jsOr dr.startDate "", jsOr dr.endDate "",
      jsOrOpt (extractProjectRole blockStr) ""⟩
  | _ => none

/-- Position matcher for `dateProjectRegex`
`([A-Z][^\n]+)\s*\(\s*(Month\s*\d{4}\s*(?:-|–|—)\s*(?:Month|Present|Current|Now)\s*\d{0,4})\s*\)`
(`gi`): match length and captures 1 and 2. -/
def dateProjAt (_ : Option Char) (cs : List Char) :
    Option (Nat × List Char × List Char) :=
  match cs with
  | c :: r0 =>
    if isLetterCh c then
      plusCh nonNl (fun r1 =>
        starCh isJsWs (litK ['('] (starCh isJsWs (fun r2 =>
          altLitsCIK (fun _ r3 =>
            starCh isJsWs (fun r4 =>
              (repChExact isDigitCh 4 r4).bind (fun r5 =>
                starCh isJsWs (fun r6 =>
                  match r6 with
                  | s :: r7 =>
                    if s = '-' || s = '–' || s = '—' then
                      starCh isJsWs (fun r8 =>
                        altLitsCIK (fun _ r9 =>
                          starCh isJsWs (repChUp isDigitCh (fun r11 =>
                            starCh isJsWs (fun r12 =>
                              match r12 with
                              | ')' :: r13 =>
                                some (cs.length - r13.length,
                                  cs.take (cs.length - r1.length),
                                  r2.take (r2.length - r11.length))
                              | _ => none) r11) 4) r9)
                          monthOrPresentLits r8) r7
                    else none
                  | [] => none) r5)) r3)
            monthLits r2))) r1) r0
    else none
  | [] => none

/-- One record of project strategy 4 (lines 1063–1105). -/
def projFromP4 (sec : List Char) (_j : Nat) (cap1 cap2 : List Char)
    (startIndex endIndex : Nat) : Project :=
  let projectName := jsTrim cap1
  let projectDate := jsTrim cap2
  let projectContent := jsTrim ((sec.drop startIndex).take (endIndex - startIndex))
  let contentStr := String.mk projectContent
  let dr := extractDateRange (String.mk projectDate)
  let tech := findFirst (techLabeledAt techLabelsP2) projectContent
  let technologies :=
    match tech with
    | some (_, _, cap) => jsTrim cap
    | none => []
  let description :=
    match tech with
    | some (_, m0, _) => jsTrim (replaceFirstStr m0 projectContent)
    | none => jsTrim (replaceFirstStr [] projectContent)
  ⟨String.mk projectName, String.mk description, String.mk technologies,
   jsOrOpt (extractGithubProjectUrl contentStr) "",
   jsOrOpt (extractLiveProjectUrl contentStr) "",
   jsOr dr.startDate "", jsOr dr.endDate "",
   jsOrOpt (extractProjectRole contentStr) ""⟩

/-- The `while (dateMatch = dateProjectRegex.exec(projectsSection))` loop
of strategy 4 (lines 1059–1107), with its `lastIndex` manipulation: a
failing inner `exec` resets `lastIndex` to 0 (ECMAScript semantics for
global regexes), a successful one leaves it at `startIndex`.  `none`
means the loop has not exited within `fuel` iterations. -/
def projP4Loop (sec : List Char) : Nat → Nat → List Project → Option (List Project)
  | 0, _, _ => none
  | fuel + 1, lastIndex, acc =>
    match execFrom dateProjAt sec lastIndex with
    | none => some acc
    | some (j, len, cap1, cap2) =>
      let startIndex := j + len
      let inner := execFrom dateProjAt sec startIndex
      let endIndex := match inner with
                      | some (j2, _) => j2
                      | none => sec.length
      let newLast := match inner with
                     | some _ => startIndex
                     | none => 0
      projP4Loop sec fuel newLast
        (acc ++ [projFromP4 sec j cap1 cap2 startIndex endIndex])

/-- The section-synonym list of `extractProjects` (lines 905–909). -/
def projHeaders : List String :=
  ["projects", "personal projects", "academic projects", "portfolio",
   "work samples", "research projects", "key projects", "notable projects",
   "selected projects", "academic works", "publications", "implementations",
   "software projects"]

/-- Strategy 1 of `extractProjects` (lines 917–937). -/
def projStrategy1 (sec : List Char) : List Project :=
  (globalMatches projP1At sec).map (fun m =>
    let j := m.1
    let len := m.2.1
    let m0 := String.mk (matchStrAt sec j len)
    let dr := extractDateRange m0
    (⟨String.mk (jsTrim m.2.2.1), String.mk (jsTrim m.2.2.2.1),
      (match m.2.2.2.2 with
       | some c3 => String.mk (jsTrim c3)
       | none => ""),
      jsOrOpt (extractGithubProjectUrl m0) "",
      jsOrOpt (extractLiveProjectUrl m0) "",
      jsOr dr.startDate "", jsOr dr.endDate "",
      jsOrOpt (extractProjectRole m0) ""⟩ : Project))

/-- Strategy 2 of `extractProjects` (lines 940–1001). -/
def projStrategy2 (sec : List Char) : List Project :=
  (globalMatches projTitleAt sec).map (fun m => projFromP2 sec m.1 m.2.1 m.2.2)

/-- Strategy 3 of `extractProjects` (lines 1004–1056). -/
def projStrategy3 (sec : List Char) : List Project :=
  (splitBlankLines sec).filterMap projFromBlock

/-- Embedding of `extractProjects` (lines 903–1125): four strategies in
priority order, each only run when the previous ones produced nothing,
then the placeholder.  `none` propagates non-termination of strategy 4. -/
def extractProjects (fuel : Nat) (text : String) : Option (List Project) :=
  let projectsSection := extractSection text projHeaders
  (if projectsSection = "" then some [] else
    let sec := projectsSection.data
    let projects1 := projStrategy1 sec
    let projects2 := if projects1 = [] then projStrategy2 sec else projects1
    let projects3 := if projects2 = [] then projStrategy3 sec else projects2
    if projects3 = [] then projP4Loop sec fuel 0 [] else some projects3).map
    (fun ps => if ps = [] then [projectPlaceholder] else ps)

/-! Work-experience extractor (lines 1216–1544). -/

structure WorkExperience where
  company : String
  position : String
  startDate : String
  endDate : String
  duration : String
  location : String
  description : String
  responsibilities : String
  achievements : String
  deriving DecidableEq, Repr

/-- The default record pushed when nothing was found (lines 1530–1541);
strategy 1 is the only one that sets `duration`, the other strategies
(and the placeholder) leave it out, modelled as `""`. -/
def workPlaceholder : WorkExperience := ⟨"", "", "", "", "", "", "", "", ""⟩

/-- Remove the first match of a position matcher returning a match
length (`String.prototype.replace(regex, '')`). -/
def replaceFirstMatch (tryAt : Option Char → List Char → Option Nat)
    (cs : List Char) : List Char :=
  match findFirst tryAt cs with
  | some (i, len) => cs.take i ++ cs.drop (i + len)
  | none => cs

/-- Matcher for a constructed pattern `(?:labels)\s*:?\s*<literal>` (`i`),
the literal being an `escapeRegExp`-protected extracted value. -/
def labelLitAt (labels : List (List Char)) (value : List Char)
    (_ : Option Char) (cs : List Char) : Option Nat :=
  altLitsCIK (fun _ r0 =>
    labelSepK (fun r1 =>
      (dropLitCI value r1).map (fun r2 => cs.length - r2.length)) r0) labels cs

/-- Matcher for the constructed date pattern
`{startDate}\s*(?:-|to|–|—)\s*{endDate}` (`i`). -/
def dateSpanAt (sd ed : List Char) (_ : Option Char) (cs : List Char) : Option Nat :=
  (dropLitCI sd cs).bind (fun r1 =>
    starCh isJsWs (fun r2 =>
      altLitsCIK (fun _ r3 =>
        starCh isJsWs (fun r4 =>
          (dropLitCI ed r4).map (fun r5 => cs.length - r5.length)) r3)
        dateSeps r2) r1)

/-- Labeled multi-line capture
`(?:labels)\s*:?\s*([^\n]+(?:\n[^\n]+)*)` (`i`): whole match and capture. -/
def multilineCapAt (labels : List (List Char)) (_ : Option Char) (cs : List Char) :
    Option (List Char × List Char) :=
  altLitsCIK (fun _ r0 =>
    labelSepK (fun r1 =>
      plusCh nonNl (fun r2 =>
        starG (fun k2 => litK ['\n'] (plusCh nonNl k2))
          (fun r3 =>
            some (cs.take (cs.length - r3.length), r1.take (r1.length - r3.length)))
          (r2.length + 1) r2) r1) r0) labels cs

def respLabels : List (List Char) :=
  (["responsibilities", "duties", "tasks", "key responsibilities"]).map String.data

def achieveLabels : List (List Char) :=
  (["achievements", "accomplishments", "key achievements", "results"]).map String.data

def positionLabels : List (List Char) :=
  (["position", "title", "role", "designation", "job title"]).map String.data

def durationLabels : List (List Char) :=
  (["duration", "period", "timeframe"]).map String.data

def workLocationLabels : List (List Char) :=
  (["location", "place", "city", "site", "address"]).map String.data

/-- Position matcher for `companyLabeledRegex`
`(?:company|employer|organization|firm|institution|university|college)\s*:?\s*([^\n]+)`
(`gi`): match length and the capture. -/
def companyLabeledAt (_ : Option Char) (cs : List Char) : Option (Nat × List Char) :=
  altLitsCIK (fun _ r0 =>
    labelSepK (fun r1 =>
      plusCh nonNl (fun r2 =>
        some (cs.length - r2.length, r1.take (r1.length - r2.length))) r1) r0)
    (["company", "employer", "organization", "firm", "institution",
      "university", "college"].map String.data) cs

/-- One record of work-experience strategy 1 (lines 1232–1289). -/
def workFromP1 (sec : List Char) (j len : Nat) (cap : List Char) : WorkExperience :=
  let company := jsTrim cap
  let startIndex := j + len
  let remainder := sec.drop startIndex
  let endRel := match indexOfLit "company".data remainder with
                | some k => k
                | none => sec.length - startIndex
  let block := jsTrim (remainder.take endRel)
  let position := extractPattern block (labeledCapAt positionLabels)
  let duration := extractPattern block (labeledCapAt durationLabels)
  let location := extractPattern block (labeledCapAt workLocationLabels)
  let dr := extractDateRange (String.mk block)
  let respMatch := findFirst (multilineCapAt respLabels) block
  let responsibilities := match respMatch with
                          | some (_, _, cap') => jsTrim cap'
                          | none => []
  let achieveMatch := findFirst (multilineCapAt achieveLabels) block
  let achievements := match achieveMatch with
                      | some (_, _, cap') => jsTrim cap'
                      | none => []
  let d0 := block
  let d1 := if position ≠ "" then
              replaceFirstMatch (labelLitAt positionLabels position.data) d0
            else d0
  let d2 := if duration ≠ "" then
              replaceFirstMatch (labelLitAt durationLabels duration.data) d1
            else d1
  let d3 := if location ≠ "" then
              replaceFirstMatch (labelLitAt workLocationLabels location.data) d2
            else d2
  let d4 := if dr.startDate ≠ "" ∨ dr.endDate ≠ "" then
              replaceFirstMatch (dateSpanAt dr.startDate.data dr.endDate.data) d3
            else d3
  let d5 := match respMatch with
            | some (_, m0, _) => replaceFirstStr m0 d4
            | none => d4
  let d6 := match achieveMatch with
            | some (_, m0, _) => replaceFirstStr m0 d5
            | none => d5
  ⟨String.mk company, jsOr position "", jsOr dr.startDate "", jsOr dr.endDate "",
   jsOr duration "", jsOr location "", String.mk (jsTrim d6),
   jsOr (String.mk responsibilities) "", jsOr (String.mk achievements) ""⟩

def monthsCs : List (List Char) := monthLits

/-- Position matcher for `companyDateRegex`
`[•\-*]?\s*([A-Z][^\n,]+)(?:[,\s]+|\s*\(|\s*-\s*)(?:[A-Za-z]+\s+)?(?:(?:19|20)\d{2}|(?:Jan|…|December))`
(`g`, case-sensitive): match length and the capture. -/
def companyDateAt (_ : Option Char) (cs : List Char) : Option (Nat × List Char) :=
  optChCl (fun c => c = '•' || c = '-' || c = '*')
    (starCh isJsWs (fun r1 =>
      match r1 with
      | c :: r2 =>
        if isUpperCh c then
          plusCh nonNlCommaCh (fun r3 =>
            altK (fun r5 =>
              optG (fun k2 => plusCh isLetterCh (plusCh isJsWs k2))
                (fun r6 =>
                  (((year4 r6).map (fun pr => pr.2)) <|> altLitsK some monthsCs r6).map
                    (fun r7 => (cs.length - r7.length, r1.take (r1.length - r3.length))))
                r5)
              [fun k2 => plusCh (fun ch => ch = ',' || isJsWs ch) k2,
               fun k2 => starCh isJsWs (litK ['('] k2),
               fun k2 => starCh isJsWs (litK ['-'] (starCh isJsWs k2))] r3) r2
        else none
      | [] => none)) cs

/-- The same pattern without the capture, used as `nextCompanyMatch`. -/
def companyDateMarkerAt (prev : Option Char) (cs : List Char) : Option Unit :=
  (companyDateAt prev cs).map (fun _ => ())

/-- A lazy capture `(.+?)` (dot excludes newline) followed by a
terminator, shortest capture first. -/
def lazyCapTo (term : List Char → Option β) : List Char → List Char → Option (List Char × β)
  | acc, c :: rest =>
    if c = '\n' then none
    else
      let acc2 := acc ++ [c]
      match term rest with
      | some b => some (acc2, b)
      | none => lazyCapTo term acc2 rest
  | _, [] => none

/-- Terminator of `positionMatch` (line 1314):
`(?:,|\n|\s{2,}|\s+at\s+|\s+in\s+)` (`i`). -/
def posTermTest (cs : List Char) : Option Unit :=
  match cs with
  | ',' :: _ => some ()
  | '\n' :: _ => some ()
  | c :: rest =>
    if isJsWs c then
      let pr := takeRun isJsWs rest
      if 1 ≤ pr.1.length then some ()
      else
        match (dropLitCI "at".data pr.2) <|> dropLitCI "in".data pr.2 with
        | some r2 =>
          match r2 with
          | c2 :: _ => if isJsWs c2 then some () else none
          | [] => none
        | none => none
    else none
  | [] => none

/-- `^([^\n,]+?)(?:,|\n|\s{2,}|\s+at\s+|\s+in\s+)` (`i`), anchored at the
start of the block: the lazy capture. -/
def positionLeadCap (block : List Char) : Option (List Char) :=
  (lazyCapTo posTermTest [] block).bind (fun pr =>
    if pr.1.all nonNlCommaCh then some pr.1 else none)

/-- Prefix alternation of `locationMatch` (line 1324):
`(?:,\s*|\n|\s+at\s+|\s+in\s+)`. -/
def locPrefK (k : List Char → Option α) : List Char → Option α :=
  fun cs => altK k
    [fun k2 => litK [','] (starCh isJsWs k2),
     fun k2 => litK ['\n'] k2,
     fun k2 => plusCh isJsWs (litCIK "at".data (plusCh isJsWs k2)),
     fun k2 => plusCh isJsWs (litCIK "in".data (plusCh isJsWs k2))] cs

/-- Position matcher for `locationMatch`
`(?:,\s*|\n|\s+at\s+|\s+in\s+)([A-Z][a-zA-Z\s,]+)(?:\.|\n|$)` (`i`):
the capture. -/
def locCapAt (_ : Option Char) (cs : List Char) : Option (List Char) :=
  locPrefK (fun r1 =>
    match r1 with
    | c :: r2 =>
      if isLetterCh c then
        plusCh (fun ch => isLetterCh ch || isJsWs ch || ch = ',') (fun r3 =>
          match r3 with
          | '.' :: _ => some (r1.take (r1.length - r3.length))
          | '\n' :: _ => some (r1.take (r1.length - r3.length))
          | [] => some (r1.take (r1.length - r3.length))
          | _ => none) r2
      else none
    | [] => none) cs

/-- Position matcher for the bullet pattern of responsibilities
`[•\-*]\s*([^\n•\-*]+)` (`g`): match length and whole match. -/
def bullet3ItemAt (_ : Option Char) (cs : List Char) : Option (Nat × List Char) :=
  match cs with
  | b :: r0 =>
    if b = '•' || b = '-' || b = '*' then
      (starCh isJsWs
        (plusCh (fun c => c ≠ '\n' && c ≠ '•' && c ≠ '-' && c ≠ '*') some) r0).map
        (fun rest => (cs.length - rest.length, cs.take (cs.length - rest.length)))
    else none
  | [] => none

/-- `point.replace(/^[•\-*]\s*/, '')`. -/
def stripBullet3Ws (cs : List Char) : List Char :=
  match cs with
  | b :: r => if b = '•' || b = '-' || b = '*' then r.dropWhile isJsWs else cs
  | [] => cs

/-- Responsibilities from bullet points (lines 1338–1343). -/
def bulletResponsibilities (block : List Char) : List Char :=
  let pts := globalMatches bullet3ItemAt block
  joinSep ['\n'] (pts.map (fun m => jsTrim (stripBullet3Ws m.2.2)))

/-- Splice out spans found by a global scan. -/
def removeMatches (cs : List Char) : List (Nat × Nat × α) → Nat → List Char
  | [], cursor => cs.drop cursor
  | (i, len, _) :: ms, cursor =>
    (cs.drop cursor).take (i - cursor) ++ removeMatches cs ms (i + len)

/-- `description.replace(/^[•\-*]\s*/gm, '')`: remove a leading bullet
and following whitespace at every line start. -/
def bulletLineStartAt (prev : Option Char) (cs : List Char) : Option (Nat × Unit) :=
  if atLineStart prev then
    match cs with
    | b :: r0 =>
      if b = '•' || b = '-' || b = '*' then
        some (1 + (takeRun isJsWs r0).1.length, ())
      else none
    | [] => none
  else none

def stripBulletLineStarts (cs : List Char) : List Char :=
  removeMatches cs (globalMatches bulletLineStartAt cs) 0

/-- The final description/responsibilities fixup (lines 1369–1375 and
1455–1461): when the description is empty but bullet responsibilities
exist, the first bullet becomes the description. -/
def firstBulletFix (description responsibilities : List Char) :
    List Char × List Char :=
  if description = [] ∧ responsibilities ≠ [] then
    match splitNl responsibilities with
    | firstBullet :: _ =>
      if firstBullet ≠ [] then
        (firstBullet, jsTrim (replaceFirstStr firstBullet responsibilities))
      else (description, responsibilities)
    | [] => (description, responsibilities)
  else (description, responsibilities)

/-- A lazy `.*?` skip (not crossing newlines) to a case-insensitive
literal, consuming through its first occurrence. -/
def seekLitCI (pat : List Char) : List Char → Option (List Char)
  | [] => dropLitCI pat []
  | c :: cs =>
    match dropLitCI pat (c :: cs) with
    | some r => some r
    | none => if c = '\n' then none else seekLitCI pat cs

/-- The constructed `metadataPattern`
`^{position}.*?{startDate}.*?{endDate}.*?{location}` (`i`, line 1358):
length of its match at the start of the block, if any. -/
def metadataLen (pos sd ed loc block : List Char) : Option Nat :=
  ((dropLitCI pos block).bind (fun r1 =>
    (seekLitCI sd r1).bind (fun r2 =>
      (seekLitCI ed r2).bind (fun r3 =>
        seekLitCI loc r3)))).map (fun rest => block.length - rest.length)

/-- One record of work-experience strategy 2 (lines 1297–1386). -/
def workFromP2 (sec : List Char) (j len : Nat) (cap : List Char) : WorkExperience :=
  let company := jsTrim cap
  let startIndex := j + len
  let remainder := sec.drop startIndex
  let endRel := match execFrom companyDateMarkerAt sec startIndex with
                | some (j2, _) => j2 - startIndex
                | none => sec.length - startIndex
  let block := jsTrim (remainder.take endRel)
  let position := match positionLeadCap block with
                  | some c => jsTrim c
                  | none => []
  let dr := extractDateRange (String.mk block)
  let location := match findFirst locCapAt block with
                  | some (_, c) => jsTrim c
                  | none => []
  let respMatch := findFirst (multilineCapAt respLabels) block
  let responsibilities := match respMatch with
                          | some (_, _, cap') => jsTrim cap'
                          | none => bulletResponsibilities block
  let achievements := match findFirst (multilineCapAt achieveLabels) block with
                      | some (_, _, cap') => jsTrim cap'
                      | none => []
  let description0 :=
    match indexOfLit ['\n'] block with
    | some firstLineEnd => jsTrim (block.drop firstLineEnd)
    | none =>
      if position ≠ [] ∨ dr.startDate ≠ "" ∨ location ≠ [] then
        match metadataLen position dr.startDate.data dr.endDate.data location block with
        | some mlen => jsTrim (block.drop mlen)
        | none => block
      else block
  let description1 := jsTrim (stripBulletLineStarts description0)
  let fixed := firstBulletFix description1 responsibilities
  ⟨String.mk company, jsOr (String.mk position) "", jsOr dr.startDate "",
   jsOr dr.endDate "", "", jsOr (String.mk location) "", String.mk fixed.1,
   jsOr (String.mk fixed.2) "", jsOr (String.mk achievements) ""⟩

/-- Terminator of `positionAtCompanyMatch` `\s+(?:at|@)\s+(.+)` (`i`):
returns capture 2. -/
def atCompanyTerm (rest : List Char) : Option (List Char) :=
  let w1 := takeRun isJsWs rest
  if w1.1 = [] then none else
  match (dropLitCI "at".data w1.2) <|> dropLit ['@'] w1.2 with
  | some r2 =>
    let w2 := takeRun isJsWs r2
    if w2.1 = [] then none
    else if w2.2 ≠ [] then some w2.2
    else if 2 ≤ w2.1.length then some [w2.1.getLastD ' ']
    else none
  | none => none

/-- Terminator of `companyDashPositionMatch` `\s*[-–—]\s*(.+)` (`i`):
returns capture 2. -/
def dashPositionTerm (rest : List Char) : Option (List Char) :=
  let w1 := takeRun isJsWs rest
  match w1.2 with
  | d :: r2 =>
    if d = '-' || d = '–' || d = '—' then
      let w2 := takeRun isJsWs r2
      if w2.2 ≠ [] then some w2.2
      else if w2.1 ≠ [] then some [w2.1.getLastD ' ']
      else none
    else none
  | [] => none

/-- One record of work-experience strategy 3 for a block
(lines 1393–1472). -/
def workFromBlock (block : List Char) : Option WorkExperience :=
  if jsTrim block = [] then none else
  match splitNl block with
  | line0 :: line1 :: restLines =>
    let lines := line0 :: line1 :: restLines
    let firstLine := jsTrim line0
    let cp : List Char × List Char :=
      match lazyCapTo atCompanyTerm [] firstLine with
      | some (c1, c2) => (jsTrim c2, jsTrim c1)
      | none =>
        match lazyCapTo dashPositionTerm [] firstLine with
        | some (c1, c2) => (jsTrim c1, jsTrim c2)
        | none => (firstLine, [])
    let dr := extractDateRange (String.mk block)
    let location := match findFirst locCapAt block with
                    | some (_, c) => jsTrim c
                    | none => []
    let respMatch := findFirst (multilineCapAt respLabels) block
    let responsibilities := match respMatch with
                            | some (_, _, cap') => jsTrim cap'
                            | none => bulletResponsibilities block
    let achievements := match findFirst (multilineCapAt achieveLabels) block with
                        | some (_, _, cap') => jsTrim cap'
                        | none => []
    let description0 := jsTrim (joinSep ['\n'] (lines.drop 1))
    let description1 := jsTrim (stripBulletLineStarts description0)
    let fixed := firstBulletFix description1 responsibilities
    some ⟨String.mk cp.1, jsOr (String.mk cp.2) "", jsOr dr.startDate "",
      jsOr dr.endDate "", "", jsOr (String.mk location) "", String.mk fixed.1,
      jsOr (String.mk fixed.2) "", jsOr (String.mk achievements) ""⟩
  | _ => none

def academicTitles : List (List Char) :=
  (["professor", "lecturer", "instructor", "researcher", "fellow",
    "assistant", "associate", "adjunct", "postdoc", "post-doc",
    "teaching assistant", "research assistant"]).map String.data

/-- Position matcher for `academicPositionRegex`
`(?:professor|…|research assistant)\s+(?:at|of|in)\s+([^\n,]+)` (`gi`):
match length and the capture. -/
def academicAt (_ : Option Char) (cs : List Char) : Option (Nat × List Char) :=
  altLitsCIK (fun _ r0 =>
    plusCh isJsWs (fun r1 =>
      (match altLitsCIK (fun _ rx => some rx) ["at".data, "of".data, "in".data] r1 with
       | some r2 =>
         plusCh isJsWs (fun r3 =>
           plusCh nonNlCommaCh (fun r4 =>
             some (cs.length - r4.length, r3.take (r3.length - r4.length))) r3) r2
       | none => none)) r0) academicTitles cs

/-- Separator of `split(/\s+(?:at|of|in)\s+/)` (case-sensitive, line 1484). -/
def atOfInSepAt (cs : List Char) : Option Nat :=
  let w1 := takeRun isJsWs cs
  if w1.1 = [] then none else
  match altLitsK some ["at".data, "of".data, "in".data] w1.2 with
  | some r2 =>
    let w2 := takeRun isJsWs r2
    if w2.1 = [] then none else some (cs.length - w2.2.length)
  | none => none

/-- One record of work-experience strategy 4 (lines 1483–1524). -/
def workFromP4 (sec : List Char) (j len : Nat) (cap : List Char)
    (startIndex endIndex : Nat) : WorkExperience :=
  let m0 := matchStrAt sec j len
  let position := jsTrim ((splitReF atOfInSepAt m0).getD 0 [])
  let company := jsTrim cap
  let block := jsTrim ((sec.drop startIndex).take (endIndex - startIndex))
  let dr := extractDateRange (String.mk block)
  let location := match findFirst locCapAt block with
                  | some (_, c) => jsTrim c
                  | none => []
  let description := jsTrim (stripBulletLineStarts block)
  ⟨String.mk company, String.mk position, jsOr dr.startDate "",
   jsOr dr.endDate "", "", jsOr (String.mk location) "", String.mk description,
   "", ""⟩

/-- The strategy-4 `while` loop (lines 1483–1525), with the same
`lastIndex` behaviour as project strategy 4. -/
def workP4Loop (sec : List Char) : Nat → Nat → List WorkExperience →
    Option (List WorkExperience)
  | 0, _, _ => none
  | fuel + 1, lastIndex, acc =>
    match execFrom academicAt sec lastIndex with
    | none => some acc
    | some (j, len, cap) =>
      let startIndex := j + len
      let inner := execFrom academicAt sec startIndex
      let endIndex := match inner with
                      | some (j2, _) => j2
                      | none => sec.length
      let newLast := match inner with
                     | some _ => startIndex
                     | none => 0
      workP4Loop sec fuel newLast
        (acc ++ [workFromP4 sec j len cap startIndex endIndex])

/-- Embedding of `extractWorkExperience` (lines 1216–1544). -/
def extractWorkExperience (fuel : Nat) (text : String) :
    Option (List WorkExperience) :=
  let experienceSection := extractSection text
    ["experience", "work experience", "employment history",
     "professional experience", "work history", "career history",
     "professional background", "employment record", "job history",
     "professional appointments", "academic positions", "teaching experience",
     "research experience", "industry experience"]
  (if experienceSection = "" then some [] else
    let sec := experienceSection.data
    let works1 := (globalMatches companyLabeledAt sec).map (fun m =>
      workFromP1 sec m.1 m.2.1 m.2.2)
    let works2 :=
      if works1 = [] then
        (globalMatches companyDateAt sec).map (fun m => workFromP2 sec m.1 m.2.1 m.2.2)
      else works1
    let works3 :=
      if works2 = [] then (splitBlankLines sec).filterMap workFromBlock
      else works2
    if works3 = [] then workP4Loop sec fuel 0 [] else some works3).map
    (fun ws => if ws = [] then [workPlaceholder] else ws)

/-! Address extractor (lines 435–455) and the aggregator
(`extractInformation`, lines 127–184). -/

/-- Labeled capture with the `[^\n]+` class
`(?:address|location|residence)\s*:?\s*([^\n]+)` (`i`). -/
def labeledNlCapAt (labels : List (List Char)) (_ : Option Char) (cs : List Char) :
    Option (List Char) :=
  altLitsCIK (fun _ r0 =>
    labelSepK (fun r1 =>
      plusCh nonNl (fun r2 => some (r1.take (r1.length - r2.length))) r1) r0)
    labels cs

/-- Position matcher for `cityStateRegex`
`([A-Za-z\s]+),\s*([A-Za-z]{2})\s*(\d{5}(?:-\d{4})?)` (case-sensitive),
returning the whole match. -/
def cityStateAt (_ : Option Char) (cs : List Char) : Option (List Char) :=
  (plusCh alphaWsCh (fun r1 =>
    match r1 with
    | ',' :: r2 =>
      let r3 := r2.dropWhile isJsWs
      (repChExact isLetterCh 2 r3).bind (fun r4 =>
        let r5 := r4.dropWhile isJsWs
        (repChExact isDigitCh 5 r5).bind (fun r6 =>
          match r6 with
          | '-' :: r7 =>
            match repChExact isDigitCh 4 r7 with
            | some r8 => some r8
            | none => some r6
          | _ => some r6))
    | _ => none) cs).map (fun rest => cs.take (cs.length - rest.length))

/-- Embedding of `extractAddress` (lines 435–455). -/
def extractAddress (text : String) : Option String :=
  let contactSection := extractSection text
    ["contact", "personal information", "personal details"]
  if contactSection ≠ "" then
    match findFirst
        (labeledNlCapAt (["address", "location", "residence"].map String.data))
        contactSection.data with
    | some (_, cap) => some (String.mk (jsTrim cap))
    | none =>
      match findFirst cityStateAt contactSection.data with
      | some (_, m0) => some (String.mk (jsTrim m0))
      | none => none
  else none

/-- JavaScript `n || 0` on a number. -/
def jsOrInt (a b : Int) : Int := if a = 0 then b else a

structure ParsedProfile where
  firstName : String
  middleName : String
  lastName : String
  email : String
  contactNumber : String
  linkedinUrl : String
  githubUrl : String
  portfolioUrl : String
  address : String
  collegeName : String
  degree : String
  universityName : String
  specialization : String
  graduationYear : String
  startYear : String
  endYear : String
  location : String
  cgpa : String
  skills : String
  technicalSkills : String
  softSkills : String
  languages : String
  projects : List Project
  workExperiences : List WorkExperience
  certifications : String
  experience : Int
  educationLevel : String
  deriving DecidableEq, Repr

/-- Embedding of `extractInformation` (lines 127–184): the aggregator.
Fields are assembled in source order; a `null` extractor result falls
back through `||` to the listed default.  The two fuelled extractors
propagate `none` (the source loops forever on such inputs, so the whole
parse never returns). -/
def extractInformation (currentYear : Nat) (fuel : Nat) (text : String) :
    Option ParsedProfile := do
  let nameInfo := extractName text
  let educationInfo := extractEducation currentYear text
  let projects ← extractProjects fuel text
  let workExperiences ← extractWorkExperience fuel text
  some
    { firstName := jsOr nameInfo.firstName ""
      middleName := jsOr nameInfo.middleName ""
      lastName := jsOr nameInfo.lastName ""
      email := jsOrOpt (extractEmail text) ""
      contactNumber := jsOrOpt (extractPhone text) ""
      linkedinUrl := jsOrOpt (extractLinkedIn text) "https://linkedin.com/in/"
      githubUrl := jsOrOpt (extractGithubUrl text) ""
      portfolioUrl := jsOrOpt (extractPortfolioUrl text) ""
      address := jsOrOpt (extractAddress text) ""
      collegeName := jsOr educationInfo.collegeName ""
      degree := jsOr educationInfo.degree ""
      universityName := jsOr educationInfo.universityName ""
      specialization := jsOr educationInfo.specialization ""
      graduationYear := jsOr educationInfo.graduationYear ""
      startYear := jsOr educationInfo.startYear ""
      endYear := jsOr educationInfo.endYear ""
      location := jsOr educationInfo.location ""
      cgpa := jsOr educationInfo.cgpa ""
      skills := extractSkills text
      technicalSkills := jsOr (extractTechnicalSkills text) ""
      softSkills := jsOr (extractSoftSkills text) ""
      languages := jsOr (extractLanguages text) ""
      projects := projects
      workExperiences := workExperiences
      certifications := jsOr (extractCertifications text) ""
      experience := jsOrInt (calculateExperience currentYear text) 0
      educationLevel := jsOr (extractEducationLevel text) "" }

/-- The optional scheme and `www.` lead of the bare portfolio pattern:
the point in the candidate text at which the negative lookahead
`(?!linkedin\.com|github\.com)` of the source pattern applies. -/
def stripWww (r : List Char) : List Char :=
  match dropLit "www.".data r with
  | some r2 => r2
  | none => r

def stripSchemeWww (cs : List Char) : List Char :=
  stripWww
    (match dropLit "https://".data cs with
     | some r => r
     | none =>
       match dropLit "http://".data cs with
       | some r => r
       | none => cs)

/-- An input whose projects section consists of a single
`Name (Month YYYY - Month YYYY)` line: the strategy-4 date regex matches
it at offset 0, the inner look-ahead `exec` from the end of the match
fails and thereby resets the global regex's `lastIndex` to 0, and the
loop re-matches the same project forever. -/
def c8text : String :=
  "Projects:\nStuff here first line filler\nMyApp (January 2020 – March 2021)\n"

/-- The section that `extractSection` hands to the project strategies for
`c8text` (the header pattern consumes the first content line). -/
def c8sec : List Char := "MyApp (January 2020 – March 2021)".data

/-- Text whose only technical-section content is one line of 100
characters (too long for the line pattern), with a vocabulary keyword
outside the section. -/
def c3FallbackText : String :=
  "python is great\nTechnologies:\nfiller here\nxxxxxxxxxxxxxxxxxxxxxxxxxxxxxxxxxxxxxxxxxxxxxxxxxxxxxxxxxxxxxxxxxxxxxxxxxxxxxxxxxxxxxxxxxxxxxxxxxxxx\n"

/-! Helper lemmas for the claim theorems. -/

theorem mk_eq_empty (l : List Char) : String.mk l = "" ↔ l = [] := by
  constructor
  · intro h
    exact congrArg String.data h
  · intro h
    rw [h]

theorem normEnd_ne (b : List Char) (hb : b ≠ []) : normEnd b ≠ "" := by
  unfold normEnd
  split
  · decide
  · simpa [mk_eq_empty] using hb

/-- Transfer a property of a position matcher's results through the
leftmost scan. -/
theorem scanFirst_imp {α : Type} {P : α → Prop}
    {tryAt : Option Char → List Char → Option α}
    (H : ∀ prev s a, tryAt prev s = some a → P a) :
    ∀ prev i cs j a, scanFirst tryAt prev i cs = some (j, a) → P a := by
  intro prev i cs
  induction cs generalizing prev i with
  | nil =>
    intro j a h
    rw [scanFirst] at h
    cases htry : tryAt prev [] with
    | some a' =>
      rw [htry, Option.map_some'] at h
      cases h
      exact H _ _ _ htry
    | none =>
      rw [htry] at h
      cases h
  | cons c cs ih =>
    intro j a h
    rw [scanFirst] at h
    cases htry : tryAt prev (c :: cs) with
    | some a' =>
      rw [htry] at h
      cases h
      exact H _ _ _ htry
    | none =>
      rw [htry] at h
      exact ih _ _ _ _ h

theorem findFirst_imp {α : Type} {P : α → Prop}
    {tryAt : Option Char → List Char → Option α}
    (H : ∀ prev s a, tryAt prev s = some a → P a)
    {cs : List Char} {j : Nat} {a : α}
    (h : findFirst tryAt cs = some (j, a)) : P a :=
  scanFirst_imp H none 0 cs j a h

theorem dropLitCIKeep_ne_nil :
    ∀ (p : Char) (ps cs w r : List Char),
      dropLitCIKeep (p :: ps) cs = some (w, r) → w ≠ [] := by
  intro p ps cs w r h
  cases cs with
  | nil => simp [dropLitCIKeep] at h
  | cons c cs =>
    rw [dropLitCIKeep] at h
    split at h
    · simp only [Option.map_eq_some'] at h
      obtain ⟨pr, _, he⟩ := h
      cases he
      simp
    · cases h

/-- Transfer a property through an ordered literal alternation, knowing
the consumed literal is non-empty when every alternative is. -/
theorem altLitsCIK_imp {α : Type} {P : α → Prop}
    {k : List Char → List Char → Option α}
    (H : ∀ w r a, w ≠ [] → k w r = some a → P a) :
    ∀ pats, (∀ pat ∈ pats, pat ≠ []) →
      ∀ cs a, altLitsCIK k pats cs = some a → P a := by
  intro pats
  induction pats with
  | nil =>
    intro _ cs a h
    simp [altLitsCIK] at h
  | cons pat pats ih =>
    intro hpats cs a h
    rw [altLitsCIK] at h
    have hpat : pat ≠ [] := hpats pat (by simp)
    have hrest : ∀ p ∈ pats, p ≠ [] := fun p hp => hpats p (by simp [hp])
    cases hd : dropLitCIKeep pat cs with
    | some wr =>
      obtain ⟨w, r⟩ := wr
      rw [hd] at h
      dsimp only at h
      cases hk : k w r with
      | some v =>
        rw [hk] at h
        cases h
        obtain ⟨p, ps, rfl⟩ : ∃ p ps, pat = p :: ps := by
          cases pat with
          | nil => exact absurd rfl hpat
          | cons p ps => exact ⟨p, ps, rfl⟩
        exact H _ _ _ (dropLitCIKeep_ne_nil _ _ _ _ _ hd) hk
      | none =>
        rw [hk] at h
        exact ih hrest _ _ h
    | none =>
      rw [hd] at h
      exact ih hrest _ _ h

theorem year4_ne_nil (cs : List Char) (yr : List Char × List Char)
    (h : year4 cs = some yr) : yr.1 ≠ [] := by
  match cs with
  | [] => cases h
  | [c1] => cases h
  | [c1, c2] => cases h
  | [c1, c2, c3] => cases h
  | c1 :: c2 :: c3 :: c4 :: rest =>
    rw [year4] at h
    split at h
    · cases h
      simp
    · cases h

theorem foldl_add_nonneg {α : Type} (f : α → Int) :
    ∀ (l : List α) (acc : Int), 0 ≤ acc → (∀ x ∈ l, 0 ≤ f x) →
      0 ≤ l.foldl (fun a x => a + f x) acc := by
  intro l
  induction l with
  | nil =>
    intro acc hacc _
    simpa using hacc
  | cons x xs ih =>
    intro acc hacc h
    simp only [List.foldl_cons]
    exact ih _ (by have := h x (by simp); omega) (fun y hy => h y (by simp [hy]))

/-! Claim theorems. -/

theorem dropLit_eq_append :
    ∀ (pre cs r : List Char), dropLit pre cs = some r → cs = pre ++ r := by
  intro pre
  induction pre with
  | nil =>
    intro cs r h
    rw [dropLit] at h
    cases h
    rfl
  | cons p ps ih =>
    intro cs r h
    cases cs with
    | nil => cases h
    | cons c cs =>
      rw [dropLit] at h
      split at h
      · have := ih cs r h
        simp_all
      · cases h

theorem excludedLead_decomp (s : List Char) (h : excludedLead s = true) :
    (∃ t, s = "linkedin.com".data ++ t) ∨ (∃ t, s = "github.com".data ++ t) := by
  unfold excludedLead at h
  rcases Bool.or_eq_true_iff.mp h with h1 | h1
  · left
    unfold litAtFront at h1
    cases hd : dropLit "linkedin.com".data s with
    | some r => exact ⟨r, dropLit_eq_append _ _ _ hd⟩
    | none => rw [hd] at h1; cases h1
  · right
    unfold litAtFront at h1
    cases hd : dropLit "github.com".data s with
    | some r => exact ⟨r, dropLit_eq_append _ _ _ hd⟩
    | none => rw [hd] at h1; cases h1

/-- The strategy-4 loop re-matches the same project of `c8sec` forever:
no amount of fuel makes it exit. -/
theorem c8_loop : ∀ (fuel : Nat) (acc : List Project),
    projP4Loop c8sec fuel 0 acc = none := by
  intro fuel
  induction fuel with
  | zero => intro acc; rfl
  | succ n ih =>
    intro acc
    show projP4Loop c8sec n 0
      (acc ++ [projFromP4 c8sec 0 "MyApp ".data "January 2020 – March 2021".data 33 33]) = none
    exact ih _

theorem c8_projects_none (fuel : Nat) : extractProjects fuel c8text = none := by
  show (projP4Loop c8sec fuel 0 []).map
    (fun ps => if ps = [] then [projectPlaceholder] else ps) = none
  rw [c8_loop fuel []]
  rfl

/-- Claim C1, counterexample: `extractInformation` applied to the empty
string does not give every string field the value `""`: the
`linkedinUrl` field falls back to `"https://linkedin.com/in/"` (source
line 147), which is not empty. -/
theorem C1_counterexample :
    (extractInformation 2025 0 "").map ParsedProfile.linkedinUrl =
      some "https://linkedin.com/in/" ∧
    ("https://linkedin.com/in/" : String) ≠ "" := by
  constructor
  · rfl
  · decide

/-- Claim C1, amended: for the empty input string and any current year
and fuel, the parse returns a record in which every string field is `""`
except `linkedinUrl`, which defaults to `"https://linkedin.com/in/"`;
`experience` is `0`, and `projects` and `workExperiences` each contain
exactly the one placeholder record (the project placeholder carrying the
fixed non-empty description text). -/
theorem C1_parse_empty_defaults (currentYear fuel : Nat) :
    extractInformation currentYear fuel "" = some
      { firstName := "", middleName := "", lastName := "", email := "",
        contactNumber := "", linkedinUrl := "https://linkedin.com/in/",
        githubUrl := "", portfolioUrl := "", address := "", collegeName := "",
        degree := "", universityName := "", specialization := "",
        graduationYear := "", startYear := "", endYear := "", location := "",
        cgpa := "", skills := "", technicalSkills := "", softSkills := "",
        languages := "", projects := [projectPlaceholder],
        workExperiences := [workPlaceholder], certifications := "",
        experience := 0, educationLevel := "" } := rfl

/-- Claim C2, counterexample: an experience section whose only year
range runs backwards makes `calculateExperience` return a negative
number, contradicting the `integer >= 0` contract. -/
theorem C2_counterexample :
    calculateExperience 2025
      "Experience:\nAcme Corporation working hard\n2020 - 2018\n" = -2 ∧
    calculateExperience 2025
      "Experience:\nAcme Corporation working hard\n2020 - 2018\n" < 0 := by
  constructor
  · decide
  · decide

/-- Claim C2, amended: `calculateExperience` returns an integer that is
non-negative whenever the value comes from the explicit
`N years of experience` phrase, and, in the date-range branch,
non-negative provided every matched `YYYY - YYYY|present` range
contributes a non-negative difference; a reversed range such as
`2020 - 2018` makes the sum negative. -/
theorem C2_experience_nonneg (currentYear : Nat) (text : String) :
    ((explicitYears text).isSome → 0 ≤ calculateExperience currentYear text) ∧
    ((∀ m : Nat × Nat × List Char,
        m ∈ globalMatches yearRangeAt
          (extractSection text
            ["experience", "work experience", "employment history"]).data →
        0 ≤ rangeYears currentYear m.2.2) →
      0 ≤ calculateExperience currentYear text) := by
  constructor
  · intro hs
    obtain ⟨n, hn⟩ := Option.isSome_iff_exists.mp hs
    unfold calculateExperience
    rw [hn]
    exact Int.ofNat_nonneg n
  · intro hall
    unfold calculateExperience
    cases he : explicitYears text with
    | some n => exact Int.ofNat_nonneg n
    | none =>
      exact foldl_add_nonneg (fun m : Nat × Nat × List Char => rangeYears currentYear m.2.2) _ 0 (by omega) hall

theorem C2_experience_nonneg_witness :
    0 ≤ calculateExperience 2025 "I have 5 years of experience" ∧
    0 ≤ calculateExperience 2025 "" :=
  ⟨(C2_experience_nonneg 2025 "I have 5 years of experience").1 (by decide),
   (C2_experience_nonneg 2025 "").2 (by decide)⟩

/-- Claim C7, counterexample: for the input consisting of the standalone
line `Jane Q. Public`, `extractName` returns three empty fields, not
`Jane` / `Q.` / `Public`: the middle initial `Q.` cannot be matched by
the name-word pattern `[A-Z][a-zA-Z'-]+` (the period is outside the
class and each word needs at least two characters). -/
theorem C7_counterexample :
    extractName "Jane Q. Public\n" = ⟨"", "", ""⟩ ∧
    (⟨"", "", ""⟩ : NameParts) ≠ ⟨"Jane", "Q.", "Public"⟩ := by
  constructor
  · decide
  · decide

/-- Claim C7, amended: a standalone name line is only recognised when
each word matches `[A-Z][a-zA-Z'-]+` (at least two letters, no period),
so `"Jane Q. Public"` yields all-empty name fields, while a line such as
`"Jane Quincy Public"` at the top of the text yields
`firstName = "Jane"`, `middleName = "Quincy"`, `lastName = "Public"`. -/
theorem C7_name_line :
    extractName "Jane Q. Public\n" = ⟨"", "", ""⟩ ∧
    extractName "Jane Quincy Public\nSoftware Engineer\njane@example.com\n" =
      ⟨"Jane", "Quincy", "Public"⟩ := by
  constructor
  · decide
  · decide

/-- Claim C3, counterexample: a text with no technical-skills section in
which the technology vocabulary does occur (`python`): the claim's
whole-document fallback would return the found keywords, but the
function returns `""` because a failed section search returns
immediately (lines 644–646). -/
theorem C3_counterexample :
    extractSection "I write python code\n" techHeaders = "" ∧
    commonTechScan "I write python code\n".data = ["python".data] ∧
    extractTechnicalSkills "I write python code\n" = "" := by
  refine ⟨by decide, by decide, by decide⟩

/-- Claim C3, amended: when the technical-skills section search entirely
fails, `extractTechnicalSkills` returns `""` immediately and the
whole-document vocabulary fallback is not reached; the fallback runs
only when a section was located but its patterns produced zero skills,
in which case the result is the vocabulary scan of the whole document. -/
theorem C3_tech_fallback (text : String) :
    (extractSection text techHeaders = "" → extractTechnicalSkills text = "") ∧
    (extractSection text techHeaders ≠ "" →
      techFromSection (extractSection text techHeaders).data = [] →
      extractTechnicalSkills text =
        String.intercalate "\n" ((commonTechScan text.data).map String.mk)) := by
  constructor
  · intro h
    unfold extractTechnicalSkills
    rw [h]
    simp
  · intro hne hempty
    unfold extractTechnicalSkills
    rw [if_neg hne, hempty]
    simp

set_option maxRecDepth 8192 in
theorem C3_tech_fallback_witness :
    extractTechnicalSkills "I write python code\n" = "" ∧
    extractTechnicalSkills c3FallbackText = "python" := by
  constructor
  · exact (C3_tech_fallback "I write python code\n").1 (by decide)
  · have h := (C3_tech_fallback c3FallbackText).2 (by decide) (by decide)
    rw [h]
    decide

/-- Claim C4, counterexample: the placeholder project emitted for an
input with no detected projects does not have all remaining fields
empty: its description is the fixed text
`"Please add your project description here"` (line 1114). -/
theorem C4_counterexample :
    extractProjects 1 "" = some [projectPlaceholder] ∧
    projectPlaceholder.name = "Project" ∧
    projectPlaceholder.description ≠ "" := by
  refine ⟨by decide, rfl, by decide⟩

/-- Claim C4, amended: whenever all four extraction strategies detect
zero projects (including any text with no located projects section),
`extractProjects` returns exactly one placeholder record whose name is
`"Project"`, whose description is the fixed placeholder text, and whose
remaining fields are empty. -/
theorem C4_placeholder (fuel : Nat) (text : String) (hf : 1 ≤ fuel)
    (h : extractSection text projHeaders = "" ∨
      (projStrategy1 (extractSection text projHeaders).data = [] ∧
       projStrategy2 (extractSection text projHeaders).data = [] ∧
       projStrategy3 (extractSection text projHeaders).data = [] ∧
       execFrom dateProjAt (extractSection text projHeaders).data 0 = none)) :
    extractProjects fuel text = some [projectPlaceholder] := by
  unfold extractProjects
  rcases h with h | ⟨h1, h2, h3, h4⟩
  · rw [h]
    simp
  · by_cases hs : extractSection text projHeaders = ""
    · rw [hs]
      simp
    · simp only [if_neg hs, h1, h2, h3, if_pos]
      obtain ⟨n, rfl⟩ : ∃ n, fuel = n + 1 := ⟨fuel - 1, by omega⟩
      rw [projP4Loop, h4]
      simp

theorem C4_placeholder_witness :
    (1 : Nat) ≤ 1 ∧ extractProjects 1 "" = some [projectPlaceholder] :=
  ⟨le_refl 1, C4_placeholder 1 "" (le_refl 1) (Or.inl (by decide))⟩

/-- Claim C6, counterexample: a LinkedIn URL already written with the
`http://` scheme is returned unchanged, so the extracted URL does not
carry an `https://` prefix. -/
theorem C6_counterexample :
    extractLinkedIn "http://linkedin.com/in/janeq" =
      some "http://linkedin.com/in/janeq" ∧
    jsStartsWith "http://linkedin.com/in/janeq" "https://" = false := by
  refine ⟨by decide, by decide⟩

theorem ensureHttps_startsWith (u : String) :
    jsStartsWith (ensureHttps u) "http" = true := by
  unfold ensureHttps
  split
  · next h => exact h
  · obtain ⟨du⟩ := u
    rfl

/-- Claim C6, amended: every URL returned by `extractLinkedIn` or
`extractGithubUrl` starts with `"http"` — `https://` is prepended
exactly when the matched URL does not already start with `http`, so an
`http://` URL keeps its scheme; in particular,
`"linkedin: linkedin.com/in/janeq"` yields
`https://linkedin.com/in/janeq`. -/
theorem C6_url_normalization :
    (∀ text url, extractLinkedIn text = some url → jsStartsWith url "http" = true) ∧
    (∀ text url, extractGithubUrl text = some url → jsStartsWith url "http" = true) ∧
    extractLinkedIn "linkedin: linkedin.com/in/janeq" =
      some "https://linkedin.com/in/janeq" := by
  refine ⟨?_, ?_, by decide⟩
  · intro text url h
    unfold extractLinkedIn at h
    cases h1 : findFirst linkedinLabeledAt text.data with
    | some m =>
      obtain ⟨i, cap⟩ := m
      rw [h1] at h
      dsimp only at h
      cases h
      exact ensureHttps_startsWith _
    | none =>
      rw [h1] at h
      dsimp only at h
      cases h2 : findFirst linkedinBareAt text.data with
      | some m =>
        obtain ⟨i, cap⟩ := m
        rw [h2, Option.map_some'] at h
        cases h
        exact ensureHttps_startsWith _
      | none =>
        rw [h2] at h
        cases h
  · intro text url h
    unfold extractGithubUrl at h
    cases h1 : findFirst githubLabeledAt text.data with
    | some m =>
      obtain ⟨i, cap⟩ := m
      rw [h1] at h
      dsimp only at h
      cases h
      exact ensureHttps_startsWith _
    | none =>
      rw [h1] at h
      dsimp only at h
      cases h2 : findFirst githubBareAt text.data with
      | some m =>
        obtain ⟨i, cap⟩ := m
        rw [h2, Option.map_some'] at h
        cases h
        exact ensureHttps_startsWith _
      | none =>
        rw [h2] at h
        cases h

theorem C6_url_normalization_witness :
    jsStartsWith "https://linkedin.com/in/janeq" "http" = true :=
  C6_url_normalization.1 "linkedin: linkedin.com/in/janeq"
    "https://linkedin.com/in/janeq" (by decide)

/-- Claim C9: in the synonym loop of the section locator, whenever the
span extracted for the current synonym is shorter than 10 characters and
more than one synonym remains untried (`rest.length ≥ 2`, which under
the loop invariant `rest.length < total` makes the source guard
`sectionHeaders.length > 1` hold), the locator continues with the next
synonyms — carrying the span only as the latest `sectionText` value —
instead of accepting the truncated match. -/
theorem C9_section_guard (cs : List Char) (total : Nat) (h : String)
    (rest : List String) (acc span : List Char)
    (hspan : sectionFor cs h = some span)
    (hshort : span.length < 10)
    (huntried : 2 ≤ rest.length)
    (htotal : rest.length < total) :
    extractSectionGo cs total (h :: rest) acc = extractSectionGo cs total rest span := by
  rw [extractSectionGo, hspan]
  show (if span.length < 10 ∧ 1 < total then extractSectionGo cs total rest span else span) = _
  rw [if_pos ⟨hshort, by omega⟩]

theorem C9_section_guard_witness :
    extractSectionGo "Skills:\nabc\n".data 3 ["skills", "languages", "projects"] [] =
      extractSectionGo "Skills:\nabc\n".data 3 ["languages", "projects"] [] :=
  C9_section_guard "Skills:\nabc\n".data 3 "skills" ["languages", "projects"] [] []
    (by decide) (by decide) (by decide) (by decide)

theorem monthYearAt_ne (cs : List Char) (gr : List Char × List Char)
    (h : monthYearAt cs = some gr) : gr.1 ≠ [] := by
  unfold monthYearAt at h
  refine altLitsCIK_imp (P := fun gr : List Char × List Char => gr.1 ≠ [])
    ?_ monthLits (by decide) cs gr h
  intro w r a hw hk
  dsimp only at hk
  split at hk
  · cases hk
  · cases hy : year4 (takeRun isJsWs r).2 with
    | some yr =>
      rw [hy] at hk
      cases hk
      simp [hw]
    | none => rw [hy] at hk; cases hk

theorem dateRangeP1At_ne (cs : List Char) (ab : List Char × List Char)
    (h : dateRangeP1At cs = some ab) : ab.1 ≠ [] ∧ ab.2 ≠ [] := by
  unfold dateRangeP1At at h
  cases hy : year4 cs with
  | none => rw [hy] at h; cases h
  | some yr =>
    rw [hy] at h
    have hy1 : yr.1 ≠ [] := year4_ne_nil _ _ hy
    obtain ⟨y1, r1⟩ := yr
    refine altLitsCIK_imp
      (P := fun ab : List Char × List Char => ab.1 ≠ [] ∧ ab.2 ≠ [])
      ?_ dateSeps (by decide) _ ab h
    intro w r a _ hk
    dsimp only at hk
    cases hy2 : year4 (r.dropWhile isJsWs) with
    | some yr2 =>
      rw [hy2] at hk
      cases hk
      exact ⟨hy1, year4_ne_nil _ _ hy2⟩
    | none =>
      rw [hy2] at hk
      refine altLitsCIK_imp
        (P := fun ab : List Char × List Char => ab.1 ≠ [] ∧ ab.2 ≠ [])
        ?_ presentWords (by decide) _ a hk
      intro w2 r2 a2 hw2 hk2
      cases hk2
      exact ⟨hy1, hw2⟩

theorem dateRangeP2At_ne (cs : List Char) (ab : List Char × List Char)
    (h : dateRangeP2At cs = some ab) : ab.1 ≠ [] ∧ ab.2 ≠ [] := by
  unfold dateRangeP2At at h
  cases hy : monthYearAt cs with
  | none => rw [hy] at h; cases h
  | some gr =>
    rw [hy] at h
    have hy1 : gr.1 ≠ [] := monthYearAt_ne _ _ hy
    obtain ⟨g1, r1⟩ := gr
    refine altLitsCIK_imp
      (P := fun ab : List Char × List Char => ab.1 ≠ [] ∧ ab.2 ≠ [])
      ?_ dateSeps (by decide) _ ab h
    intro w r a _ hk
    dsimp only at hk
    cases hy2 : monthYearAt (r.dropWhile isJsWs) with
    | some gr2 =>
      rw [hy2] at hk
      cases hk
      exact ⟨hy1, monthYearAt_ne _ _ hy2⟩
    | none =>
      rw [hy2] at hk
      refine altLitsCIK_imp
        (P := fun ab : List Char × List Char => ab.1 ≠ [] ∧ ab.2 ≠ [])
        ?_ presentWords (by decide) _ a hk
      intro w2 r2 a2 hw2 hk2
      cases hk2
      exact ⟨hy1, hw2⟩

theorem mmYearAt_ne (cs : List Char) (gr : List Char × List Char)
    (h : mmYearAt cs = some gr) : gr.1 ≠ [] := by
  unfold mmYearAt at h
  rcases (Option.orElse_eq_some _ _ _).mp h with h1 | ⟨_, h1⟩
  · match cs, h1 with
    | d1 :: d2 :: c :: rest, h1 =>
      dsimp only at h1
      split at h1
      · simp only [Option.map_eq_some'] at h1
        obtain ⟨yr, _, he⟩ := h1
        cases he
        simp
      · cases h1
  · match cs, h1 with
    | [], h1 => cases h1
    | [d1], h1 => cases h1
    | d1 :: c :: rest, h1 =>
      dsimp only at h1
      split at h1
      · simp only [Option.map_eq_some'] at h1
        obtain ⟨yr, _, he⟩ := h1
        cases he
        simp
      · cases h1

theorem dateRangeP3At_ne (cs : List Char) (ab : List Char × List Char)
    (h : dateRangeP3At cs = some ab) : ab.1 ≠ [] ∧ ab.2 ≠ [] := by
  unfold dateRangeP3At at h
  cases hy : mmYearAt cs with
  | none => rw [hy] at h; cases h
  | some gr =>
    rw [hy] at h
    have hy1 : gr.1 ≠ [] := mmYearAt_ne _ _ hy
    obtain ⟨g1, r1⟩ := gr
    refine altLitsCIK_imp
      (P := fun ab : List Char × List Char => ab.1 ≠ [] ∧ ab.2 ≠ [])
      ?_ dateSeps (by decide) _ ab h
    intro w r a _ hk
    dsimp only at hk
    cases hy2 : mmYearAt (r.dropWhile isJsWs) with
    | some gr2 =>
      rw [hy2] at hk
      cases hk
      exact ⟨hy1, mmYearAt_ne _ _ hy2⟩
    | none =>
      rw [hy2] at hk
      refine altLitsCIK_imp
        (P := fun ab : List Char × List Char => ab.1 ≠ [] ∧ ab.2 ≠ [])
        ?_ presentWords (by decide) _ a hk
      intro w2 r2 a2 hw2 hk2
      cases hk2
      exact ⟨hy1, hw2⟩

/-- Claim C10: for every input text, the record returned by
`extractDateRange` has `startDate` and `endDate` either both empty (no
pattern matched) or both non-empty (some pattern matched); one field is
never populated without the other. -/
theorem C10_date_range_both_or_neither (text : String) :
    ((extractDateRange text).startDate = "" ∧ (extractDateRange text).endDate = "") ∨
    ((extractDateRange text).startDate ≠ "" ∧ (extractDateRange text).endDate ≠ "") := by
  unfold extractDateRange
  cases h1 : findFirst (fun _ cs => dateRangeP1At cs) text.data with
  | some m =>
    obtain ⟨i, a, b⟩ := m
    have hne : a ≠ [] ∧ b ≠ [] :=
      findFirst_imp (fun _ s ab hab => dateRangeP1At_ne s ab hab) h1
    right
    exact ⟨by simpa [mk_eq_empty] using hne.1, normEnd_ne _ hne.2⟩
  | none =>
    cases h2 : findFirst (fun _ cs => dateRangeP2At cs) text.data with
    | some m =>
      obtain ⟨i, a, b⟩ := m
      have hne : a ≠ [] ∧ b ≠ [] :=
        findFirst_imp (fun _ s ab hab => dateRangeP2At_ne s ab hab) h2
      right
      exact ⟨by simpa [mk_eq_empty] using hne.1, normEnd_ne _ hne.2⟩
    | none =>
      cases h3 : findFirst (fun _ cs => dateRangeP3At cs) text.data with
      | some m =>
        obtain ⟨i, a, b⟩ := m
        have hne : a ≠ [] ∧ b ≠ [] :=
          findFirst_imp (fun _ s ab hab => dateRangeP3At_ne s ab hab) h3
        right
        exact ⟨by simpa [mk_eq_empty] using hne.1, normEnd_ne _ hne.2⟩
      | none =>
        left
        exact ⟨rfl, rfl⟩


/-- Claim C5, counterexample: the labeled portfolio pattern carries no
linkedin/github exclusion, so a `website:` label followed by a LinkedIn
URL is returned as the portfolio URL, and the returned string contains
`linkedin.com`. -/
theorem C5_counterexample :
    extractPortfolioUrl "website: linkedin.com/in/janeq" =
      some "https://linkedin.com/in/janeq" ∧
    containsLit "linkedin.com".data "https://linkedin.com/in/janeq".data = true :=
  ⟨rfl, rfl⟩

/-- Claim C5, amended: only the bare portfolio pattern carries the
exclusion, as a negative lookahead placed after the optional scheme and
`www.` lead: at any position whose candidate text starts — after that
lead — with `linkedin.com` or `github.com`, the bare matcher fails, for
any preceding character. -/
theorem C5_portfolio_bare (prev : Option Char) (cs : List Char)
    (h : excludedLead (stripSchemeWww cs) = true) :
    portfolioBareAt prev cs = none := by
  unfold stripSchemeWww at h
  cases h1 : dropLit "https://".data cs with
  | some r =>
    rw [h1] at h
    obtain rfl := dropLit_eq_append _ _ _ h1
    unfold stripWww at h
    cases h2 : dropLit "www.".data r with
    | some r2 =>
      rw [h2] at h
      obtain rfl := dropLit_eq_append _ _ _ h2
      rcases excludedLead_decomp _ h with ⟨t, rfl⟩ | ⟨t, rfl⟩ <;> rfl
    | none =>
      rw [h2] at h
      rcases excludedLead_decomp _ h with ⟨t, rfl⟩ | ⟨t, rfl⟩ <;> rfl
  | none =>
    rw [h1] at h
    cases h2 : dropLit "http://".data cs with
    | some r =>
      rw [h2] at h
      obtain rfl := dropLit_eq_append _ _ _ h2
      unfold stripWww at h
      cases h3 : dropLit "www.".data r with
      | some r2 =>
        rw [h3] at h
        obtain rfl := dropLit_eq_append _ _ _ h3
        rcases excludedLead_decomp _ h with ⟨t, rfl⟩ | ⟨t, rfl⟩ <;> rfl
      | none =>
        rw [h3] at h
        rcases excludedLead_decomp _ h with ⟨t, rfl⟩ | ⟨t, rfl⟩ <;> rfl
    | none =>
      rw [h2] at h
      unfold stripWww at h
      cases h3 : dropLit "www.".data cs with
      | some r2 =>
        rw [h3] at h
        obtain rfl := dropLit_eq_append _ _ _ h3
        rcases excludedLead_decomp _ h with ⟨t, rfl⟩ | ⟨t, rfl⟩ <;> rfl
      | none =>
        rw [h3] at h
        rcases excludedLead_decomp _ h with ⟨t, rfl⟩ | ⟨t, rfl⟩ <;> rfl

theorem C5_portfolio_bare_witness :
    excludedLead (stripSchemeWww "https://www.linkedin.com/in/janeq".data) = true ∧
    portfolioBareAt none "https://www.linkedin.com/in/janeq".data = none :=
  ⟨by decide, C5_portfolio_bare none "https://www.linkedin.com/in/janeq".data (by decide)⟩

/-- Claim C8: the parse is not total.  On `c8text` the strategy-4 date
regex of the project extractor matches the single project line, the
inner look-ahead `exec` from the end of that match fails and — by the
ECMAScript rule that a failed `exec` on a global regex resets its
`lastIndex` to 0 — the `while (dateMatch = dateProjectRegex.exec(...))`
loop re-matches the same project forever, so `extractInformation` never
returns: no fuel bound suffices, for any current year. -/
theorem C8_parse_diverges (currentYear fuel : Nat) :
    extractInformation currentYear fuel c8text = none := by
  unfold extractInformation
  rw [c8_projects_none fuel]
  rfl

end ResumeParser
